import Mathlib

/-!
Verification development for the trackshape-utils repository.

The Python library edits an ASCII 3D mesh format ("shapefile") kept in memory
as a list of text lines, and provides a track-centerline geometry engine over
real-valued 3D points.  This file gives a shallow embedding of the parts of
`trackshapeutils/trackshapeutils.py` needed by the claims:

* lines are modelled as `List Char` (Python `str`), documents as
  `List (List Char)`; the Python string operations used by the code
  (`in` substring test, `lower`, `split(" ")`, `" ".join`) are modelled by
  executable functions below;
* the indexed-trilist mutation algorithms are modelled over the in-memory
  arrays exactly as the Python code manipulates them;
* the geometry engine is modelled over `ℝ` (numpy float arithmetic is read
  at real-number precision, which is the precision-independent content of
  the claims).
-/

set_option autoImplicit false

/-! ### Python string primitives over `List Char` -/

/-- Python `str.lower` on one line (`Char.toLower` per character). -/
def lowerL (l : List Char) : List Char := l.map Char.toLower

/-- returns `true` when the second list begins with the first (helper for the
Python substring test and for `str.startswith`). -/
def beginsWith : List Char → List Char → Bool
  | [], _ => true
  | _ :: _, [] => false
  | p :: ps, c :: cs => p == c && beginsWith ps cs

/-- Python substring containment `pat in s`. -/
def containsSub (pat : List Char) : List Char → Bool
  | [] => beginsWith pat []
  | c :: t => beginsWith pat (c :: t) || containsSub pat t

/-- Python `s.split(" ")`: split on every single space, keeping empty parts. -/
def splitSpace : List Char → List (List Char)
  | [] => [[]]
  | c :: r =>
    match splitSpace r with
    | [] => [[]]
    | h :: t => if c = ' ' then [] :: h :: t else (c :: h) :: t

/-- Python `" ".join(parts)`. -/
def joinSpace : List (List Char) → List Char
  | [] => []
  | [x] => x
  | x :: y :: t => x ++ ' ' :: joinSpace (y :: t)

/-- fuel-driven digit accumulation for `natToChars`; `n + 1` units of fuel
always suffice. -/
def natToCharsAux : Nat → Nat → List Char → List Char
  | 0, _, acc => acc
  | fuel + 1, n, acc =>
    if n < 10 then Nat.digitChar n :: acc
    else natToCharsAux fuel (n / 10) (Nat.digitChar (n % 10) :: acc)

/-- decimal rendering of a natural number, as Python `str(n)` produces it. -/
def natToChars (n : Nat) : List Char := natToCharsAux (n + 1) n []

/-! ### Line classification used by the Shapefile scanning code

Each predicate mirrors one Python membership test of the form
`pattern in line.lower()`. -/

def patPoints : List Char := ("points (").toList

def patPoint : List Char := ("point (").toList

def patUvPoint : List Char := ("uv_point (").toList

def patClose : List Char := (")").toList

def patNormals : List Char := ("normals (").toList

def patVector : List Char := ("vector (").toList

/-- Python test `"points (" in line.lower()`. -/
def pointsOpenB (l : List Char) : Bool := containsSub patPoints (lowerL l)

/-- Python test `"point (" in line.lower()`. -/
def pointOpenB (l : List Char) : Bool := containsSub patPoint (lowerL l)

/-- Python test `"uv_point (" in line.lower()`. -/
def uvPointOpenB (l : List Char) : Bool := containsSub patUvPoint (lowerL l)

/-- Python test `")" in line.lower()`. -/
def closeParenB (l : List Char) : Bool := containsSub patClose (lowerL l)

/-- Python test `"normals (" in line.lower()`. -/
def normalsOpenB (l : List Char) : Bool := containsSub patNormals (lowerL l)

/-- Python test `"vector (" in line.lower()`. -/
def vectorOpenB (l : List Char) : Bool := containsSub patVector (lowerL l)

/-- a line that `Shapefile.get_points` parses as one point record:
`"point (" in line.lower() and "uv_point (" not in line.lower()`. -/
def pointRecB (l : List Char) : Bool := pointOpenB l && !uvPointOpenB l

/-! ### Shapefile.add_point / Shapefile.add_normal over the line list

The Python methods receive a `Point`/`Normal` object and render its
coordinates with `round(_, 4)` before interpolating them into the inserted
line; the rendering of the three floats is not modelled, so the embedded
functions receive the already rendered coordinate texts `xs ys zs`. -/

/-- the line `f"\t\tpoint ( {x} {y} {z} )"` inserted by `add_point`. -/
def pointRecLine (xs ys zs : List Char) : List Char :=
  (("\t\tpoint ( ").toList) ++ xs ++ ' ' :: ys ++ ' ' :: zs ++ ((" )").toList)

/-- the line `f"\t\tvector ( {x} {y} {z} )"` inserted by `add_normal`. -/
def vectorRecLine (xs ys zs : List Char) : List Char :=
  (("\t\tvector ( ").toList) ++ xs ++ ' ' :: ys ++ ' ' :: zs ++ ((" )").toList)

/-- Python `parts[2] = tok; " ".join(parts)` on one line (`set_point_count`
and `set_normal_count` body).  Python raises IndexError when the line splits
into fewer than three parts; `List.set` leaves the list unchanged there, a
case excluded by the well-formedness hypotheses of the theorems below. -/
def setTok2 (l tok : List Char) : List Char := joinSpace ((splitSpace l).set 2 tok)

/-- `Shapefile.set_point_count`: rewrite part 2 of the first line containing
`"points ("`.  Python returns `False` when no line matches; the embedding
returns the unchanged document in that case. -/
def setPointCount : List (List Char) → Nat → List (List Char)
  | [], _ => []
  | l :: rest, n =>
    if pointsOpenB l then setTok2 l (natToChars n) :: rest
    else l :: setPointCount rest n

/-- `Shapefile.set_normal_count`: same as `setPointCount` for `"normals ("`. -/
def setNormalCount : List (List Char) → Nat → List (List Char)
  | [], _ => []
  | l :: rest, n =>
    if normalsOpenB l then setTok2 l (natToChars n) :: rest
    else l :: setNormalCount rest n

/-- the scanning loop of `Shapefile.add_point`: walk the lines with the
`processing_points` flag and the running record count; at the first line
that closes the points block, insert the new record line before it and
return the count together with the updated tail. -/
def addPointAux (inserted : List Char) :
    List (List Char) → Bool → Nat → Option (Nat × List (List Char))
  | [], _, _ => none
  | l :: rest, processing, cnt =>
    let processing2 := processing || pointsOpenB l
    if processing2 && closeParenB l && !pointOpenB l then
      some (cnt, inserted :: l :: rest)
    else if processing2 && pointOpenB l then
      (addPointAux inserted rest processing2 (cnt + 1)).map (fun pr => (pr.1, l :: pr.2))
    else
      (addPointAux inserted rest processing2 cnt).map (fun pr => (pr.1, l :: pr.2))

/-- `Shapefile.add_point`: insert the rendered record line, then update the
declared count to `returned index + 1`, and return the new zero-based index. -/
def addPoint (doc : List (List Char)) (xs ys zs : List Char) :
    Option (Nat × List (List Char)) :=
  (addPointAux (pointRecLine xs ys zs) doc false 0).map
    (fun pr => (pr.1, setPointCount pr.2 (pr.1 + 1)))

/-- the scanning loop of `Shapefile.add_normal`; the block close test is
`")" in line.lower() and len(line.lower()) < 6`. -/
def addNormalAux (inserted : List Char) :
    List (List Char) → Bool → Nat → Option (Nat × List (List Char))
  | [], _, _ => none
  | l :: rest, processing, cnt =>
    let processing2 := processing || normalsOpenB l
    if processing2 && closeParenB l && decide (l.length < 6) then
      some (cnt, inserted :: l :: rest)
    else if processing2 && vectorOpenB l then
      (addNormalAux inserted rest processing2 (cnt + 1)).map (fun pr => (pr.1, l :: pr.2))
    else
      (addNormalAux inserted rest processing2 cnt).map (fun pr => (pr.1, l :: pr.2))

/-- `Shapefile.add_normal`. -/
def addNormal (doc : List (List Char)) (xs ys zs : List Char) :
    Option (Nat × List (List Char)) :=
  (addNormalAux (vectorRecLine xs ys zs) doc false 0).map
    (fun pr => (pr.1, setNormalCount pr.2 (pr.1 + 1)))

/-- number of records `Shapefile.get_points` parses from the document. -/
def parsedPointCount (doc : List (List Char)) : Nat :=
  (doc.filter pointRecB).length

/-- the state machine of `Shapefile.get_normals`, counting the parsed
`vector (` records: a `normals (` line turns processing on, records are
counted while processing, and a line with a close paren and no `vector (`
turns processing off. -/
def parsedNormalCountAux : List (List Char) → Bool → Nat
  | [], _ => 0
  | l :: rest, processing =>
    let processing2 := processing || normalsOpenB l
    let add := if processing2 && vectorOpenB l then 1 else 0
    let processing3 := if processing2 && closeParenB l && !vectorOpenB l then false else processing2
    add + parsedNormalCountAux rest processing3

/-- number of records `Shapefile.get_normals` parses from the document. -/
def parsedNormalCount (doc : List (List Char)) : Nat := parsedNormalCountAux doc false

/-- the declared point count field: part 2 of the first `points (` line, as
decimal text.  This is the field `set_point_count` maintains. -/
def declaredPointTok (doc : List (List Char)) : Option (List Char) :=
  match doc.find? pointsOpenB with
  | none => none
  | some l => (splitSpace l).get? 2

/-- the declared normal count field: part 2 of the first `normals (` line. -/
def declaredNormalTok (doc : List (List Char)) : Option (List Char) :=
  match doc.find? normalsOpenB with
  | none => none
  | some l => (splitSpace l).get? 2

/-! ### The indexed-trilist model

`IndexedTrilist` holds the three parallel arrays together with the scope
fields used by the cross-scope guards; `Vertex` is reduced to the fields the
mutation operations read (`_vertex_idx`, `_lod_dlevel`, `_subobject_idx`).
Normal values computed by `calculate_face_normal` land in the normals arena
of the document and only their returned indices flow back into the trilist,
so the arena is modelled by its size: `add_normal` on an arena of size `a`
returns index `a` and leaves an arena of size `a + 1`. -/

structure TrilistD where
  vertexIdxs : List Nat
  normalIdxs : List Nat
  flags : List String
  lodDlevel : Int
  subobjectIdx : Int
deriving DecidableEq, Repr

structure VertexRef where
  vertexIdx : Nat
  lodDlevel : Int
  subobjectIdx : Int
deriving DecidableEq, Repr

/-- Python chunking `[tuple(l[i : i + 3]) for i in range(0, len(l), 3)]`;
the final chunk is shorter when the length is not a multiple of three. -/
def chunk3 : List Nat → List (List Nat)
  | [] => []
  | [a] => [[a]]
  | [a, b] => [[a, b]]
  | a :: b :: c :: rest => [a, b, c] :: chunk3 rest

/-- Python slice deletion `del l[start : start + count]`. -/
def delSlice {α : Type} (l : List α) (start count : Nat) : List α :=
  l.take start ++ l.drop (start + count)

/-- Python `[i for i, t in enumerate(ts) if pred t]`, with explicit start
counter. -/
def filterIdxs (pred : List Nat → Bool) : List (List Nat) → Nat → List Nat
  | [], _ => []
  | t :: ts, i =>
    if pred t then i :: filterIdxs pred ts (i + 1) else filterIdxs pred ts (i + 1)

/-- the deletion loop shared by the trilist mutations:
`for tri_idx in reversed(delete_idxs): del vertex_idxs[3i : 3i+3];
del normal_idxs[2i : 2i+2]; del flags[i]`. -/
def delTrianglesAt (t : TrilistD) (idxs : List Nat) : TrilistD :=
  idxs.reverse.foldl
    (fun tr i =>
      { tr with
        vertexIdxs := delSlice tr.vertexIdxs (i * 3) 3
        normalIdxs := delSlice tr.normalIdxs (i * 2) 2
        flags := delSlice tr.flags i 1 })
    t

/-- the cross-scope `ValueError` cases raised by the guard chains; Python
attaches a distinct message per failed comparison, recorded here as the
category of the comparison. -/
inductive ScopeError where
  | vertexVertexDlevel
  | vertexVertexSubobject
  | vertexTrilistDlevel
  | vertexTrilistSubobject
  | argTrilistDlevel
  | argTrilistSubobject
deriving DecidableEq, Repr

/-- guard chain of `Shapefile.insert_triangle_between` and
`Shapefile.remove_triangle_between`, in source order. -/
def triangleGuards (t : TrilistD) (v1 v2 v3 : VertexRef) : Option ScopeError :=
  if v1.lodDlevel ≠ v2.lodDlevel then some .vertexVertexDlevel
  else if v1.lodDlevel ≠ v3.lodDlevel then some .vertexVertexDlevel
  else if v2.lodDlevel ≠ v3.lodDlevel then some .vertexVertexDlevel
  else if v1.subobjectIdx ≠ v2.subobjectIdx then some .vertexVertexSubobject
  else if v1.subobjectIdx ≠ v3.subobjectIdx then some .vertexVertexSubobject
  else if v2.subobjectIdx ≠ v3.subobjectIdx then some .vertexVertexSubobject
  else if t.lodDlevel ≠ v1.lodDlevel then some .vertexTrilistDlevel
  else if t.subobjectIdx ≠ v1.subobjectIdx then some .vertexTrilistSubobject
  else if t.lodDlevel ≠ v2.lodDlevel then some .vertexTrilistDlevel
  else if t.subobjectIdx ≠ v2.subobjectIdx then some .vertexTrilistSubobject
  else if t.lodDlevel ≠ v3.lodDlevel then some .vertexTrilistDlevel
  else if t.subobjectIdx ≠ v3.subobjectIdx then some .vertexTrilistSubobject
  else none

/-- `Shapefile.insert_triangle_between` on the trilist arrays: append the
three vertex indices, one freshly added face-normal index paired with the
sentinel `3`, and one default flag; `arena` is the normals arena size and
the new normal index is the `add_normal` return value. -/
def insertTriangleBetween (t : TrilistD) (v1 v2 v3 : VertexRef) (arena : Nat) :
    Except ScopeError (TrilistD × Nat) :=
  match triangleGuards t v1 v2 v3 with
  | some e => .error e
  | none =>
    .ok
      ({ t with
          vertexIdxs := t.vertexIdxs ++ [v1.vertexIdx, v2.vertexIdx, v3.vertexIdx]
          normalIdxs := t.normalIdxs ++ [arena, 3]
          flags := t.flags ++ [("00000000")] },
        arena + 1)

/-- `Shapefile.remove_triangle_between` on the trilist arrays: delete every
triangle containing all three vertex indices. -/
def removeTriangleBetween (t : TrilistD) (v1 v2 v3 : VertexRef) :
    Except ScopeError TrilistD :=
  match triangleGuards t v1 v2 v3 with
  | some e => .error e
  | none =>
    .ok
      (delTrianglesAt t
        (filterIdxs
          (fun tri =>
            tri.contains v1.vertexIdx && tri.contains v2.vertexIdx &&
              tri.contains v3.vertexIdx)
          (chunk3 t.vertexIdxs) 0))

/-- `Shapefile.remove_triangles_connected_to_vertex` on the trilist arrays:
delete every triangle containing the vertex index. -/
def removeTrianglesConnectedToVertex (t : TrilistD) (v : VertexRef) :
    Except ScopeError TrilistD :=
  if t.lodDlevel ≠ v.lodDlevel then .error .vertexTrilistDlevel
  else if t.subobjectIdx ≠ v.subobjectIdx then .error .vertexTrilistSubobject
  else
    .ok
      (delTrianglesAt t
        (filterIdxs (fun tri => tri.contains v.vertexIdx) (chunk3 t.vertexIdxs) 0))

/-- the trilist surgery performed by `Shapefile.insert_vertex_between` after
`add_vertex_to_subobject` has allocated the new vertex at arena slot
`newIdx`: shift every vertex index `≥ newIdx` by one, delete every triangle
containing `v1` or `v2`, then for every original triangle containing both
`v1` and `v2` append the two split triangles (winding chosen by
`(idx2 - idx1) % 3`), two fresh face-normal indices each paired with the
sentinel `3`, and two default flags.  `arena` is the normals arena size. -/
def insertVertexTrilistUpdate (t : TrilistD) (v1 v2 newIdx arena : Nat) :
    TrilistD × Nat :=
  let shifted :=
    { t with vertexIdxs := t.vertexIdxs.map (fun x => if newIdx ≤ x then x + 1 else x) }
  let tris := chunk3 shifted.vertexIdxs
  let delIdxs := filterIdxs (fun tri => tri.contains v1 || tri.contains v2) tris 0
  let start := delTrianglesAt shifted delIdxs
  tris.foldl
    (fun (acc : TrilistD × Nat) tri =>
      if tri.contains v1 && tri.contains v2 then
        let v3 := (tri.filter (fun x => !(x == v1 || x == v2))).headD 0
        let i1 : Int := tri.indexOf v1
        let i2 : Int := tri.indexOf v2
        let tr := acc.1
        let arena2 := acc.2
        if (i2 - i1) % 3 == 1 then
          ({ tr with
              vertexIdxs := tr.vertexIdxs ++ [v1, newIdx, v3] ++ [newIdx, v2, v3]
              normalIdxs := tr.normalIdxs ++ [arena2, 3, arena2 + 1, 3]
              flags := tr.flags ++ [("00000000"), ("00000000")] },
            arena2 + 2)
        else
          ({ tr with
              vertexIdxs := tr.vertexIdxs ++ [v1, v3, newIdx] ++ [newIdx, v3, v2]
              normalIdxs := tr.normalIdxs ++ [arena2, 3, arena2 + 1, 3]
              flags := tr.flags ++ [("00000000"), ("00000000")] },
            arena2 + 2)
      else acc)
    (start, arena)

/-- guard chain of `Shapefile.add_vertex_to_subobject`, in source order. -/
def addVertexGuards (lodDlevel subobjectIdx : Int) (t : TrilistD) : Option ScopeError :=
  if lodDlevel ≠ t.lodDlevel then some .argTrilistDlevel
  else if subobjectIdx ≠ t.subobjectIdx then some .argTrilistSubobject
  else none

/-- guard chain of `Shapefile.insert_vertex_between`, in source order. -/
def insertVertexGuards (t : TrilistD) (v1 v2 : VertexRef) : Option ScopeError :=
  if v1.lodDlevel ≠ v2.lodDlevel then some .vertexVertexDlevel
  else if v1.subobjectIdx ≠ v2.subobjectIdx then some .vertexVertexSubobject
  else if t.lodDlevel ≠ v1.lodDlevel then some .vertexTrilistDlevel
  else if t.subobjectIdx ≠ v1.subobjectIdx then some .vertexTrilistSubobject
  else if t.lodDlevel ≠ v2.lodDlevel then some .vertexTrilistDlevel
  else if t.subobjectIdx ≠ v2.subobjectIdx then some .vertexTrilistSubobject
  else none

/-- `Shapefile.add_vertex_to_subobject` as a state transformer: the guard
chain runs first and raising leaves the document state untouched; `body`
stands for the rest of the Python method, which only executes once every
guard has passed. -/
def addVertexToSubobject {σ α : Type} (lodDlevel subobjectIdx : Int) (t : TrilistD)
    (body : σ → σ × α) (s : σ) : Except ScopeError (σ × α) :=
  match addVertexGuards lodDlevel subobjectIdx t with
  | some e => .error e
  | none => .ok (body s)

/-- `Shapefile.insert_vertex_between` as a state transformer, analogous to
`addVertexToSubobject`. -/
def insertVertexBetween {σ α : Type} (t : TrilistD) (v1 v2 : VertexRef)
    (body : σ → σ × α) (s : σ) : Except ScopeError (σ × α) :=
  match insertVertexGuards t v1 v2 with
  | some e => .error e
  | none => .ok (body s)

/-- the document state a caller observes after a call: the updated state on
success, the original state when the call raised. -/
def runKeep {σ α ε : Type} (r : Except ε (σ × α)) (s : σ) : σ :=
  match r with
  | .ok p => p.1
  | .error _ => s

/-! ### Geometry over the reals

Points are triples of reals; numpy vector operations used by the geometry
engine are spelled out componentwise.  Definitions needing `Real.sqrt`,
trigonometric functions or real-number comparison are `noncomputable`; the
code they embed works on floats. -/

@[ext]
structure P3 where
  x : ℝ
  y : ℝ
  z : ℝ

/-- componentwise difference of two points (numpy array subtraction). -/
def sub3 (a b : P3) : P3 := ⟨a.x - b.x, a.y - b.y, a.z - b.z⟩

/-- numpy `np.cross` of two 3-vectors. -/
def cross3 (a b : P3) : P3 :=
  ⟨a.y * b.z - a.z * b.y, a.z * b.x - a.x * b.z, a.x * b.y - a.y * b.x⟩

/-- numpy `np.sign`. -/
noncomputable def pySign (v : ℝ) : ℝ := if 0 < v then 1 else if v < 0 then -1 else 0

/-- numpy `np.linalg.norm(vec[:2])`: the norm of the FIRST TWO components,
exactly as `signed_distance_between` computes it. -/
noncomputable def norm2First (v : P3) : ℝ := Real.sqrt (v.x ^ 2 + v.y ^ 2)

/-- numpy `np.linalg.norm(vec)` of a 3-vector. -/
noncomputable def norm3 (v : P3) : ℝ := Real.sqrt (v.x ^ 2 + v.y ^ 2 + v.z ^ 2)

/-- `signed_distance_between(point1, point2, plane)`: project both points
onto the named plane, take `vector_to_point = point1_proj - point2_proj`,
and return `np.linalg.norm(vector_to_point[:2]) * np.sign(cross[-1])` where
`cross = np.cross(reference_vector, vector_to_point)`; the plane `xyz`
returns the unsigned Euclidean distance, and an unknown plane raises
(`none`). -/
noncomputable def signedDistanceBetween (point1 point2 : P3) (plane : String) : Option ℝ :=
  if plane = ("x") then
    let p1 : P3 := ⟨point1.x, 0, 0⟩
    let p2 : P3 := ⟨point2.x, 0, 0⟩
    let ref : P3 := ⟨0, 1, 0⟩
    some (norm2First (sub3 p1 p2) * pySign ((cross3 ref (sub3 p1 p2)).z))
  else if plane = ("y") then
    let p1 : P3 := ⟨0, point1.y, 0⟩
    let p2 : P3 := ⟨0, point2.y, 0⟩
    let ref : P3 := ⟨1, 0, 0⟩
    some (norm2First (sub3 p1 p2) * pySign ((cross3 ref (sub3 p1 p2)).z))
  else if plane = ("z") then
    let p1 : P3 := ⟨0, 0, point1.z⟩
    let p2 : P3 := ⟨0, 0, point2.z⟩
    let ref : P3 := ⟨1, 0, 0⟩
    some (norm2First (sub3 p1 p2) * pySign ((cross3 ref (sub3 p1 p2)).z))
  else if plane = ("xy") then
    let p1 : P3 := ⟨point1.x, point1.y, 0⟩
    let p2 : P3 := ⟨point2.x, point2.y, 0⟩
    let ref : P3 := ⟨1, 0, 0⟩
    some (norm2First (sub3 p1 p2) * pySign ((cross3 ref (sub3 p1 p2)).z))
  else if plane = ("xz") then
    let p1 : P3 := ⟨point1.x, 0, point1.z⟩
    let p2 : P3 := ⟨point2.x, 0, point2.z⟩
    let ref : P3 := ⟨0, 1, 0⟩
    some (norm2First (sub3 p1 p2) * pySign ((cross3 ref (sub3 p1 p2)).z))
  else if plane = ("zy") then
    let p1 : P3 := ⟨0, point1.y, point1.z⟩
    let p2 : P3 := ⟨0, point2.y, point2.z⟩
    let ref : P3 := ⟨1, 0, 0⟩
    some (norm2First (sub3 p1 p2) * pySign ((cross3 ref (sub3 p1 p2)).z))
  else if plane = ("xyz") then
    some (norm3 (sub3 point2 point1))
  else none

/-- `distance_between(point1, point2, plane)`: absolute value of the signed
distance. -/
noncomputable def distanceBetween (point1 point2 : P3) (plane : String) : Option ℝ :=
  (signedDistanceBetween point1 point2 plane).map (fun d => |d|)

/-- numpy `np.argmin` accumulator: strict improvement keeps the first index
attaining the minimum. -/
noncomputable def argminAux : List ℝ → Nat → Nat → ℝ → Nat
  | [], _, besti, _ => besti
  | v :: r, i, besti, bestv =>
    if v < bestv then argminAux r (i + 1) i v else argminAux r (i + 1) besti bestv

/-- numpy `np.argmin` over a list; `none` on the empty list (numpy raises). -/
noncomputable def argminIdx : List ℝ → Option Nat
  | [] => none
  | v :: r => some (argminAux r 1 0 v)

/-- `find_closest_centerpoint(point_along_track, trackcenter, plane)`:
project the samples and the query onto the named plane, take the 2D norms of
the differences, and return the full 3D sample at the argmin index.  `none`
covers both failure modes of the Python code: the `ValueError` for an
unknown plane and the numpy exception on an empty sample list. -/
noncomputable def findClosestCenterpoint (p : P3) (tc : List P3) (plane : String) :
    Option P3 :=
  if plane = ("xz") then
    match argminIdx (tc.map (fun c => Real.sqrt ((c.x - p.x) ^ 2 + (c.z - p.z) ^ 2))) with
    | none => none
    | some i => tc.get? i
  else if plane = ("xy") then
    match argminIdx (tc.map (fun c => Real.sqrt ((c.x - p.x) ^ 2 + (c.y - p.y) ^ 2))) with
    | none => none
    | some i => tc.get? i
  else none

/-- the quantity `find_closest_trackcenter` compares across candidates: the
`distance_between` value from the query point to the closest sample of the
candidate. -/
noncomputable def candMetric (p : P3) (tc : List P3) (plane : String) : Option ℝ :=
  match findClosestCenterpoint p tc plane with
  | none => none
  | some cp => distanceBetween p cp plane

/-- the loop of `find_closest_trackcenter`: running best candidate and
running minimal distance (`None` plays `float(inf)`), updated on strict
improvement. -/
noncomputable def findClosestTrackcenterAux (p : P3) (plane : String) :
    List (List P3) → Option (List P3) → Option ℝ → Option (List P3)
  | [], best, _ => best
  | tc :: rest, best, minD =>
    match findClosestCenterpoint p tc plane with
    | none => none
    | some cp =>
      match distanceBetween p cp plane with
      | none => none
      | some d =>
        match minD with
        | none => findClosestTrackcenterAux p plane rest (some tc) (some d)
        | some m =>
          if d < m then findClosestTrackcenterAux p plane rest (some tc) (some d)
          else findClosestTrackcenterAux p plane rest best (some m)

/-- `find_closest_trackcenter(point_along_track, trackcenters, plane)`. -/
noncomputable def findClosestTrackcenter (p : P3) (tcs : List (List P3)) (plane : String) :
    Option (List P3) :=
  findClosestTrackcenterAux p plane tcs none none

/-- numpy `np.radians`. -/
noncomputable def degToRad (d : ℝ) : ℝ := d * Real.pi / 180

/-- numpy `np.linspace(a, b, n)` (with endpoint): sample `i` is
`a + (b - a) * i / (n - 1)`; for `n = 1` the real-division convention
`x / 0 = 0` gives `[a]`, matching numpy. -/
noncomputable def linspaceF (a b : ℝ) (n : Nat) : List ℝ :=
  (List.range n).map (fun (i : ℕ) => a + (b - a) * (i : ℝ) / ((n : ℝ) - 1))

/-- `generate_straight_centerpoints(length, num_points, start_angle,
start_point)`: `z` runs over `linspace(p.z, p.z + length)`, the `x` array is
constant `p.x`, and the emitted samples are
`(p.x + x cos - z sin, p.y, p.z + x sin + z cos)`. -/
noncomputable def generateStraightCenterpoints (len : ℝ) (numPoints : Nat)
    (startAngle : ℝ) (startPoint : P3) : List P3 :=
  let angleRad := degToRad startAngle
  (linspaceF startPoint.z (startPoint.z + len) numPoints).map
    (fun z =>
      ⟨startPoint.x + startPoint.x * Real.cos angleRad - z * Real.sin angleRad,
        startPoint.y,
        startPoint.z + startPoint.x * Real.sin angleRad + z * Real.cos angleRad⟩)

/-- Modelled from the spec: the plane-projected Euclidean distance between
two points, the quantity the claims about `signed_distance_between`,
`find_closest_centerpoint` and `find_closest_trackcenter` refer to.  Used
only to compare the code against the claim. -/
noncomputable def specPlaneDist (a b : P3) (plane : String) : ℝ :=
  if plane = ("x") then Real.sqrt ((a.x - b.x) ^ 2)
  else if plane = ("y") then Real.sqrt ((a.y - b.y) ^ 2)
  else if plane = ("z") then Real.sqrt ((a.z - b.z) ^ 2)
  else if plane = ("xy") then Real.sqrt ((a.x - b.x) ^ 2 + (a.y - b.y) ^ 2)
  else if plane = ("xz") then Real.sqrt ((a.x - b.x) ^ 2 + (a.z - b.z) ^ 2)
  else if plane = ("zy") then Real.sqrt ((a.y - b.y) ^ 2 + (a.z - b.z) ^ 2)
  else if plane = ("xyz") then norm3 (sub3 a b)
  else 0

/-! ### The compressed-state gate of `Shapefile` -/

/-- the decompressed-format magic header tested by `Shapefile.is_compressed`. -/
def simisaMagic : List Char := ("SIMISA@@@@@@@@@@JINX0s1t______").toList

/-- `Shapefile.is_compressed`: read the first 32 characters of the file;
`some false` when they start with the magic, `none` for an empty file,
`some true` otherwise (mirroring Python `False`, `None`, `True`). -/
def isCompressedModel (content : List Char) : Option Bool :=
  let header := content.take 32
  if beginsWith simisaMagic header then some false
  else if header = [] then none
  else some true

/-- the in-memory state of a `Shapefile`: the on-disk content consulted by
`is_compressed` and the parsed line list `_lines`. -/
structure ShapefileState where
  content : List Char
  linesMem : List (List Char)

/-- the dedicated `AttributeError` conditions of `Shapefile`. -/
inductive ShapefileError where
  | accessLinesWhileCompressed
  | saveWhileCompressed
deriving DecidableEq, Repr

/-- the `Shapefile.lines` property: raising when `is_compressed()` is truthy,
returning `_lines` otherwise. -/
def shapefileLines (s : ShapefileState) : Except ShapefileError (List (List Char)) :=
  match isCompressedModel s.content with
  | some true => .error .accessLinesWhileCompressed
  | _ => .ok s.linesMem

/-- `Shapefile.save`: raising when compressed, otherwise writing
`"\n".join(self.lines)`; the embedding returns the line list handed to the
file writer. -/
def shapefileSave (s : ShapefileState) : Except ShapefileError (List (List Char)) :=
  match isCompressedModel s.content with
  | some true => .error .saveWhileCompressed
  | _ => .ok s.linesMem

/-! ### Helper lemmas about `pySign` and the signed distance -/

theorem pySign_zero : pySign 0 = 0 := by
  simp [pySign]


theorem pySign_neg (a : ℝ) : pySign (-a) = -pySign a := by
  unfold pySign
  split_ifs <;> linarith

theorem abs_mul_pySign (a : ℝ) : |a| * pySign a = a := by
  unfold pySign
  split_ifs with h1 h2
  · rw [abs_of_pos h1]; ring
  · rw [abs_of_neg h2]; ring
  · have h : a = 0 := by linarith
    subst h; simp

theorem abs_mul_pySign_neg (a : ℝ) : |a| * pySign (-a) = -a := by
  rw [pySign_neg, mul_neg, abs_mul_pySign]

theorem sdb_plane_x (p1 p2 : P3) :
    signedDistanceBetween p1 p2 ("x") = some (p2.x - p1.x) := by
  unfold signedDistanceBetween
  norm_num [norm2First, cross3, sub3]
  rw [Real.sqrt_sq_eq_abs, abs_sub_comm, abs_mul_pySign]

theorem sdb_plane_y (p1 p2 : P3) :
    signedDistanceBetween p1 p2 ("y") = some (p1.y - p2.y) := by
  unfold signedDistanceBetween
  norm_num [norm2First, cross3, sub3]
  rw [if_neg (by decide), Real.sqrt_sq_eq_abs, abs_mul_pySign]

theorem sdb_plane_z (p1 p2 : P3) :
    signedDistanceBetween p1 p2 ("z") = some 0 := by
  unfold signedDistanceBetween
  norm_num [norm2First, cross3, sub3]
  rw [if_neg (by decide), if_neg (by decide)]

theorem sdb_plane_xy (p1 p2 : P3) :
    signedDistanceBetween p1 p2 ("xy") =
      some (Real.sqrt ((p1.x - p2.x) ^ 2 + (p1.y - p2.y) ^ 2) * pySign (p1.y - p2.y)) := by
  unfold signedDistanceBetween
  norm_num [norm2First, cross3, sub3]
  rw [if_neg (by decide), if_neg (by decide), if_neg (by decide)]

theorem sdb_plane_xz (p1 p2 : P3) :
    signedDistanceBetween p1 p2 ("xz") = some (p2.x - p1.x) := by
  unfold signedDistanceBetween
  norm_num [norm2First, cross3, sub3]
  rw [if_neg (by decide), if_neg (by decide), if_neg (by decide), if_neg (by decide),
    Real.sqrt_sq_eq_abs, abs_sub_comm, abs_mul_pySign]

theorem sdb_plane_zy (p1 p2 : P3) :
    signedDistanceBetween p1 p2 ("zy") = some (p1.y - p2.y) := by
  unfold signedDistanceBetween
  norm_num [norm2First, cross3, sub3]
  rw [if_neg (by decide), if_neg (by decide), if_neg (by decide), if_neg (by decide),
    if_neg (by decide), Real.sqrt_sq_eq_abs, abs_mul_pySign]

theorem sdb_plane_xyz (p1 p2 : P3) :
    signedDistanceBetween p1 p2 ("xyz") = some (norm3 (sub3 p2 p1)) := by
  unfold signedDistanceBetween
  norm_num [norm2First, cross3, sub3]
  rw [if_neg (by decide), if_neg (by decide), if_neg (by decide), if_neg (by decide),
    if_neg (by decide), if_neg (by decide)]

theorem norm3_sub_comm (a b : P3) : norm3 (sub3 a b) = norm3 (sub3 b a) := by
  unfold norm3 sub3
  ring_nf

/-- C5 counterexample: for `plane = "z"` the code computes the norm of the
first two components of the projected difference, which are both zero, so
the result is `0` although the projections of `(0,0,0)` and `(0,0,1)` onto
the `z` axis are at Euclidean distance `1`; the absolute value of the result
therefore does not equal the projected distance. -/
theorem c5_counterexample_plane_z :
    signedDistanceBetween ⟨0, 0, 0⟩ ⟨0, 0, 1⟩ ("z") = some 0 ∧
      specPlaneDist ⟨0, 0, 0⟩ ⟨0, 0, 1⟩ ("z") = 1 ∧ ¬ (|(0 : ℝ)| = 1) := by
  refine ⟨sdb_plane_z _ _, ?_, by norm_num⟩
  unfold specPlaneDist
  rw [if_neg (by decide), if_neg (by decide), if_pos rfl]
  norm_num

/-- C5 (amended): `signed_distance_between` returns, per plane, the norm of
the FIRST TWO components of the projected difference times the sign of the
last cross-product component.  In closed form: plane `x` and `xz` give
`x2 - x1`; `y` and `zy` give `y1 - y2`; `z` gives `0`; `xy` gives the true
projected distance signed by `y1 - y2`; `xyz` gives the unsigned 3D
Euclidean distance between the two points, which equals the spec distance. -/
theorem c5_signed_distance_amended (p1 p2 : P3) :
    signedDistanceBetween p1 p2 ("x") = some (p2.x - p1.x) ∧
    signedDistanceBetween p1 p2 ("y") = some (p1.y - p2.y) ∧
    signedDistanceBetween p1 p2 ("z") = some 0 ∧
    signedDistanceBetween p1 p2 ("xy") =
      some (Real.sqrt ((p1.x - p2.x) ^ 2 + (p1.y - p2.y) ^ 2) * pySign (p1.y - p2.y)) ∧
    signedDistanceBetween p1 p2 ("xz") = some (p2.x - p1.x) ∧
    signedDistanceBetween p1 p2 ("zy") = some (p1.y - p2.y) ∧
    signedDistanceBetween p1 p2 ("xyz") = some (specPlaneDist p1 p2 ("xyz")) :=
  ⟨sdb_plane_x p1 p2, sdb_plane_y p1 p2, sdb_plane_z p1 p2, sdb_plane_xy p1 p2,
    sdb_plane_xz p1 p2, sdb_plane_zy p1 p2, by
      rw [sdb_plane_xyz]
      unfold specPlaneDist
      rw [if_neg (by decide), if_neg (by decide), if_neg (by decide), if_neg (by decide),
        if_neg (by decide), if_neg (by decide), if_pos rfl, norm3_sub_comm]⟩

/-- C10: for each supported plane token, `distance_between` is defined,
nonnegative and symmetric in its two points. -/
theorem c10_distance_between_nonneg_symm (p1 p2 : P3) (plane : String)
    (hp : plane = ("x") ∨ plane = ("y") ∨ plane = ("z") ∨ plane = ("xy") ∨
      plane = ("xz") ∨ plane = ("zy") ∨ plane = ("xyz")) :
    ∃ d, distanceBetween p1 p2 plane = some d ∧ 0 ≤ d ∧
      distanceBetween p2 p1 plane = some d := by
  unfold distanceBetween
  rcases hp with rfl | rfl | rfl | rfl | rfl | rfl | rfl
  · rw [sdb_plane_x p1 p2, sdb_plane_x p2 p1]
    simp only [Option.map_some', Option.some.injEq]
    exact ⟨|p2.x - p1.x|, rfl, abs_nonneg _, by rw [abs_sub_comm]⟩
  · rw [sdb_plane_y p1 p2, sdb_plane_y p2 p1]
    simp only [Option.map_some', Option.some.injEq]
    exact ⟨|p1.y - p2.y|, rfl, abs_nonneg _, by rw [abs_sub_comm]⟩
  · rw [sdb_plane_z p1 p2, sdb_plane_z p2 p1]
    simp only [Option.map_some', Option.some.injEq]
    exact ⟨|(0 : ℝ)|, rfl, abs_nonneg _, rfl⟩
  · rw [sdb_plane_xy p1 p2, sdb_plane_xy p2 p1]
    simp only [Option.map_some', Option.some.injEq]
    refine ⟨_, rfl, abs_nonneg _, ?_⟩
    have hs : Real.sqrt ((p2.x - p1.x) ^ 2 + (p2.y - p1.y) ^ 2) =
        Real.sqrt ((p1.x - p2.x) ^ 2 + (p1.y - p2.y) ^ 2) := by ring_nf
    have hy : p2.y - p1.y = -(p1.y - p2.y) := by ring
    rw [hs, hy, pySign_neg, mul_neg, abs_neg]
  · rw [sdb_plane_xz p1 p2, sdb_plane_xz p2 p1]
    simp only [Option.map_some', Option.some.injEq]
    exact ⟨|p2.x - p1.x|, rfl, abs_nonneg _, by rw [abs_sub_comm]⟩
  · rw [sdb_plane_zy p1 p2, sdb_plane_zy p2 p1]
    simp only [Option.map_some', Option.some.injEq]
    exact ⟨|p1.y - p2.y|, rfl, abs_nonneg _, by rw [abs_sub_comm]⟩
  · rw [sdb_plane_xyz p1 p2, sdb_plane_xyz p2 p1]
    simp only [Option.map_some', Option.some.injEq]
    exact ⟨|norm3 (sub3 p2 p1)|, rfl, abs_nonneg _, by rw [norm3_sub_comm]⟩

theorem c10_distance_between_nonneg_symm_witness :
    ∃ d, distanceBetween ⟨1, 2, 3⟩ ⟨4, 5, 6⟩ ("xz") = some d ∧ 0 ≤ d ∧
      distanceBetween ⟨4, 5, 6⟩ ⟨1, 2, 3⟩ ("xz") = some d :=
  c10_distance_between_nonneg_symm ⟨1, 2, 3⟩ ⟨4, 5, 6⟩ ("xz")
    (Or.inr (Or.inr (Or.inr (Or.inr (Or.inl rfl)))))

/-- C8: on a compressed shapefile, reading `lines` fails with the dedicated
access-denied-while-compressed condition and `save` fails likewise, rather
than returning stale or empty line data; on a decompressed shapefile,
`lines` returns the in-memory line sequence. -/
theorem c8_lines_access_compressed (s : ShapefileState) :
    (isCompressedModel s.content = some true →
      shapefileLines s = .error .accessLinesWhileCompressed ∧
        shapefileSave s = .error .saveWhileCompressed) ∧
    (isCompressedModel s.content = some false →
      shapefileLines s = .ok s.linesMem) := by
  constructor <;> intro h <;> simp [shapefileLines, shapefileSave, h]

theorem c8_lines_access_compressed_witness :
    shapefileLines ⟨("MJBK").toList, [("x").toList]⟩ =
      .error .accessLinesWhileCompressed ∧
    shapefileLines ⟨simisaMagic ++ ("rest").toList, [("x").toList]⟩ =
      .ok [("x").toList] :=
  ⟨((c8_lines_access_compressed _).1 (by decide)).1,
    (c8_lines_access_compressed _).2 (by decide)⟩

theorem addVertexGuards_eq_none (lod sub : Int) (t : TrilistD)
    (h : addVertexGuards lod sub t = none) :
    lod = t.lodDlevel ∧ sub = t.subobjectIdx := by
  unfold addVertexGuards at h
  split_ifs at h <;> simp_all

theorem insertVertexGuards_eq_none (t : TrilistD) (v1 v2 : VertexRef)
    (h : insertVertexGuards t v1 v2 = none) :
    v1.lodDlevel = v2.lodDlevel ∧ v1.subobjectIdx = v2.subobjectIdx ∧
      t.lodDlevel = v1.lodDlevel ∧ t.subobjectIdx = v1.subobjectIdx ∧
      t.lodDlevel = v2.lodDlevel ∧ t.subobjectIdx = v2.subobjectIdx := by
  unfold insertVertexGuards at h
  split_ifs at h <;> simp_all

/-- C9: when the supplied vertices or trilist disagree on LOD distance level
or sub-object (or disagree with the supplied scope arguments),
`add_vertex_to_subobject` and `insert_vertex_between` raise immediately:
the result is an error and the caller still observes the unmodified
document state, whatever the rest of the method would have done. -/
theorem c9_scope_mismatch_raises_unchanged (σ α : Type) (lod sub : Int)
    (t : TrilistD) (v1 v2 : VertexRef) (body1 body2 : σ → σ × α) (s : σ) :
    (lod ≠ t.lodDlevel ∨ sub ≠ t.subobjectIdx →
      ∃ e, addVertexToSubobject lod sub t body1 s = .error e ∧
        runKeep (addVertexToSubobject lod sub t body1 s) s = s) ∧
    (v1.lodDlevel ≠ v2.lodDlevel ∨ v1.subobjectIdx ≠ v2.subobjectIdx ∨
        t.lodDlevel ≠ v1.lodDlevel ∨ t.subobjectIdx ≠ v1.subobjectIdx ∨
        t.lodDlevel ≠ v2.lodDlevel ∨ t.subobjectIdx ≠ v2.subobjectIdx →
      ∃ e, insertVertexBetween t v1 v2 body2 s = .error e ∧
        runKeep (insertVertexBetween t v1 v2 body2 s) s = s) := by
  constructor
  · intro h
    cases hg : addVertexGuards lod sub t with
    | none =>
      rcases addVertexGuards_eq_none lod sub t hg with ⟨h1, h2⟩
      rcases h with h | h <;> exact absurd (by assumption) h
    | some e =>
      exact ⟨e, by simp [addVertexToSubobject, hg], by simp [addVertexToSubobject, runKeep, hg]⟩
  · intro h
    cases hg : insertVertexGuards t v1 v2 with
    | none =>
      rcases insertVertexGuards_eq_none t v1 v2 hg with ⟨h1, h2, h3, h4, h5, h6⟩
      rcases h with h | h | h | h | h | h <;> exact absurd (by assumption) h
    | some e =>
      exact ⟨e, by simp [insertVertexBetween, hg], by simp [insertVertexBetween, runKeep, hg]⟩

theorem c9_scope_mismatch_raises_unchanged_witness :
    (∃ e, addVertexToSubobject (σ := Nat) (α := Nat) 1 0 ⟨[], [], [], 2, 0⟩
        (fun n => (n + 1, n)) 5 = .error e ∧
      runKeep (addVertexToSubobject (σ := Nat) (α := Nat) 1 0 ⟨[], [], [], 2, 0⟩
        (fun n => (n + 1, n)) 5) 5 = 5) ∧
    (∃ e, insertVertexBetween (σ := Nat) (α := Nat) ⟨[], [], [], 2, 0⟩
        ⟨0, 2, 0⟩ ⟨1, 2, 1⟩ (fun n => (n + 1, n)) 5 = .error e ∧
      runKeep (insertVertexBetween (σ := Nat) (α := Nat) ⟨[], [], [], 2, 0⟩
        ⟨0, 2, 0⟩ ⟨1, 2, 1⟩ (fun n => (n + 1, n)) 5) 5 = 5) :=
  ⟨(c9_scope_mismatch_raises_unchanged Nat Nat 1 0 ⟨[], [], [], 2, 0⟩ ⟨0, 2, 0⟩
      ⟨1, 2, 1⟩ (fun n => (n + 1, n)) (fun n => (n + 1, n)) 5).1 (by decide),
    (c9_scope_mismatch_raises_unchanged Nat Nat 1 0 ⟨[], [], [], 2, 0⟩ ⟨0, 2, 0⟩
      ⟨1, 2, 1⟩ (fun n => (n + 1, n)) (fun n => (n + 1, n)) 5).2
      (by right; left; decide)⟩

/-- C1 at the failing input: the trilist holds the single triangle
`(0, 1, 2)`, which contains vertex `0` but not vertex `3`, so by the claim
it must remain in the trilist unchanged; the code instead deletes every
triangle containing EITHER vertex and only re-emits splits for triangles
containing both, leaving no triangles at all. -/
theorem c1_insert_vertex_between_drops_one_sided_triangle :
    ((chunk3 [0, 1, 2]).all (fun tri => !(tri.contains 0 && tri.contains 3))) = true ∧
    (insertVertexTrilistUpdate ⟨[0, 1, 2], [7, 3], [("00000000")], 0, 0⟩ 0 3 4 6).1 =
      ⟨[], [], [], 0, 0⟩ := by
  constructor
  · decide
  · decide

/-! ### Helper lemmas about `argminAux` and `find_closest_centerpoint` -/

theorem argminAux_spec (r : List ℝ) : ∀ (i besti : Nat) (bestv : ℝ),
    (argminAux r i besti bestv = besti ∧ ∀ w ∈ r, bestv ≤ w) ∨
    (∃ j v, r.get? j = some v ∧ argminAux r i besti bestv = i + j ∧ v ≤ bestv ∧
      ∀ w ∈ r, v ≤ w) := by
  induction r with
  | nil => intro i besti bestv; left; exact ⟨rfl, by simp⟩
  | cons a r ih =>
    intro i besti bestv
    unfold argminAux
    by_cases h : a < bestv
    · rw [if_pos h]
      rcases ih (i + 1) i a with ⟨heq, hall⟩ | ⟨j, v, hget, heq, hle, hall⟩
      · right
        refine ⟨0, a, by simp, by simpa using heq, ?_, ?_⟩
        · exact le_of_lt h
        · rw [List.forall_mem_cons]
          exact ⟨le_refl a, hall⟩
      · right
        refine ⟨j + 1, v, by simpa using hget, by rw [heq]; omega, ?_, ?_⟩
        · exact le_trans hle (le_of_lt h)
        · rw [List.forall_mem_cons]
          exact ⟨hle, hall⟩
    · rw [if_neg h]
      push_neg at h
      rcases ih (i + 1) besti bestv with ⟨heq, hall⟩ | ⟨j, v, hget, heq, hle, hall⟩
      · left
        refine ⟨heq, ?_⟩
        rw [List.forall_mem_cons]
        exact ⟨h, hall⟩
      · right
        refine ⟨j + 1, v, by simpa using hget, by rw [heq]; omega, ?_, ?_⟩
        · exact hle
        · rw [List.forall_mem_cons]
          exact ⟨le_trans hle h, hall⟩

theorem argminIdx_spec (l : List ℝ) (hne : l ≠ []) :
    ∃ i v, argminIdx l = some i ∧ l.get? i = some v ∧ ∀ w ∈ l, v ≤ w := by
  cases l with
  | nil => exact absurd rfl hne
  | cons a r =>
    have hstep : argminIdx (a :: r) = some (argminAux r 1 0 a) := rfl
    rcases argminAux_spec r 1 0 a with ⟨heq, hall⟩ | ⟨j, v, hget, heq, hle, hall⟩
    · refine ⟨0, a, by rw [hstep, heq], by simp, ?_⟩
      rw [List.forall_mem_cons]
      exact ⟨le_refl a, hall⟩
    · refine ⟨1 + j, v, by rw [hstep, heq], ?_, ?_⟩
      · rw [show 1 + j = j + 1 by omega]
        simpa using hget
      · rw [List.forall_mem_cons]
        exact ⟨hle, hall⟩

theorem findClosestCenterpoint_xz_spec (p : P3) (tc : List P3) (hne : tc ≠ []) :
    ∃ q, findClosestCenterpoint p tc ("xz") = some q ∧ q ∈ tc ∧
      ∀ r ∈ tc, Real.sqrt ((q.x - p.x) ^ 2 + (q.z - p.z) ^ 2) ≤
        Real.sqrt ((r.x - p.x) ^ 2 + (r.z - p.z) ^ 2) := by
  unfold findClosestCenterpoint
  rw [if_pos rfl]
  have hmapne : tc.map (fun c => Real.sqrt ((c.x - p.x) ^ 2 + (c.z - p.z) ^ 2)) ≠ [] := by
    simpa using hne
  obtain ⟨i, v, hidx, hget, hall⟩ := argminIdx_spec _ hmapne
  rw [hidx]
  rw [List.get?_map] at hget
  cases htc : tc.get? i with
  | none => rw [htc] at hget; exact absurd hget (by simp)
  | some q =>
    rw [htc] at hget
    have hq : Real.sqrt ((q.x - p.x) ^ 2 + (q.z - p.z) ^ 2) = v := by
      simpa using hget
    refine ⟨q, htc, List.get?_mem htc, ?_⟩
    intro r hr
    rw [hq]
    exact hall _ (List.mem_map_of_mem _ hr)

theorem findClosestCenterpoint_xy_spec (p : P3) (tc : List P3) (hne : tc ≠ []) :
    ∃ q, findClosestCenterpoint p tc ("xy") = some q ∧ q ∈ tc ∧
      ∀ r ∈ tc, Real.sqrt ((q.x - p.x) ^ 2 + (q.y - p.y) ^ 2) ≤
        Real.sqrt ((r.x - p.x) ^ 2 + (r.y - p.y) ^ 2) := by
  unfold findClosestCenterpoint
  rw [if_neg (by decide), if_pos rfl]
  have hmapne : tc.map (fun c => Real.sqrt ((c.x - p.x) ^ 2 + (c.y - p.y) ^ 2)) ≠ [] := by
    simpa using hne
  obtain ⟨i, v, hidx, hget, hall⟩ := argminIdx_spec _ hmapne
  rw [hidx]
  rw [List.get?_map] at hget
  cases htc : tc.get? i with
  | none => rw [htc] at hget; exact absurd hget (by simp)
  | some q =>
    rw [htc] at hget
    have hq : Real.sqrt ((q.x - p.x) ^ 2 + (q.y - p.y) ^ 2) = v := by
      simpa using hget
    refine ⟨q, htc, List.get?_mem htc, ?_⟩
    intro r hr
    rw [hq]
    exact hall _ (List.mem_map_of_mem _ hr)

/-- C7: for a non-empty sample sequence and a supported plane,
`find_closest_centerpoint` returns a member of the sequence minimizing the
plane-projected 2D Euclidean distance to the query point. -/
theorem c7_closest_centerpoint_member_min (p : P3) (tc : List P3) (plane : String)
    (hp : plane = ("xz") ∨ plane = ("xy")) (hne : tc ≠ []) :
    ∃ q, findClosestCenterpoint p tc plane = some q ∧ q ∈ tc ∧
      ∀ r ∈ tc, specPlaneDist q p plane ≤ specPlaneDist r p plane := by
  rcases hp with rfl | rfl
  · obtain ⟨q, hq, hmem, hmin⟩ := findClosestCenterpoint_xz_spec p tc hne
    refine ⟨q, hq, hmem, ?_⟩
    intro r hr
    unfold specPlaneDist
    rw [if_neg (by decide), if_neg (by decide), if_neg (by decide), if_neg (by decide),
      if_pos rfl]
    exact hmin r hr
  · obtain ⟨q, hq, hmem, hmin⟩ := findClosestCenterpoint_xy_spec p tc hne
    refine ⟨q, hq, hmem, ?_⟩
    intro r hr
    unfold specPlaneDist
    rw [if_neg (by decide), if_neg (by decide), if_neg (by decide), if_pos rfl]
    exact hmin r hr

theorem c7_closest_centerpoint_member_min_witness :
    ∃ q, findClosestCenterpoint ⟨0, 0, 0⟩ [⟨1, 0, 0⟩, ⟨2, 0, 5⟩] ("xz") = some q ∧
      q ∈ [(⟨1, 0, 0⟩ : P3), ⟨2, 0, 5⟩] ∧
      ∀ r ∈ [(⟨1, 0, 0⟩ : P3), ⟨2, 0, 5⟩],
        specPlaneDist q ⟨0, 0, 0⟩ ("xz") ≤ specPlaneDist r ⟨0, 0, 0⟩ ("xz") :=
  c7_closest_centerpoint_member_min ⟨0, 0, 0⟩ [⟨1, 0, 0⟩, ⟨2, 0, 5⟩] ("xz")
    (Or.inl rfl) (by simp)

theorem findClosestCenterpoint_singleton_xz (p q : P3) :
    findClosestCenterpoint p [q] ("xz") = some q := by
  obtain ⟨q', heq, hmem, _⟩ := findClosestCenterpoint_xz_spec p [q] (by simp)
  rw [heq, List.mem_singleton.mp hmem]

theorem candMetric_isSome (p : P3) (tc : List P3) (plane : String)
    (hp : plane = ("xz") ∨ plane = ("xy")) (hne : tc ≠ []) :
    ∃ d, candMetric p tc plane = some d := by
  rcases hp with rfl | rfl
  · obtain ⟨q, hq, _, _⟩ := findClosestCenterpoint_xz_spec p tc hne
    refine ⟨|q.x - p.x|, ?_⟩
    unfold candMetric
    rw [hq]
    show Option.map (fun d => |d|) (signedDistanceBetween p q ("xz")) = some |q.x - p.x|
    rw [sdb_plane_xz]
    rfl
  · obtain ⟨q, hq, _, _⟩ := findClosestCenterpoint_xy_spec p tc hne
    refine ⟨|Real.sqrt ((p.x - q.x) ^ 2 + (p.y - q.y) ^ 2) * pySign (p.y - q.y)|, ?_⟩
    unfold candMetric
    rw [hq]
    show Option.map (fun d => |d|) (signedDistanceBetween p q ("xy")) = some _
    rw [sdb_plane_xy]
    rfl

theorem fctAux_min (p : P3) (plane : String) (tcs : List (List P3)) :
    ∀ (b : List P3) (m : ℝ), candMetric p b plane = some m →
    (∀ tc ∈ tcs, ∃ d, candMetric p tc plane = some d) →
    ∃ c d, findClosestTrackcenterAux p plane tcs (some b) (some m) = some c ∧
      candMetric p c plane = some d ∧ d ≤ m ∧ (c = b ∨ c ∈ tcs) ∧
      ∀ tc ∈ tcs, ∀ d', candMetric p tc plane = some d' → d ≤ d' := by
  induction tcs with
  | nil =>
    intro b m hb _
    exact ⟨b, m, rfl, hb, le_refl m, Or.inl rfl, by simp⟩
  | cons tc rest ih =>
    intro b m hb hall
    obtain ⟨d, hd⟩ := hall tc (by simp)
    cases hcp : findClosestCenterpoint p tc plane with
    | none =>
      unfold candMetric at hd
      rw [hcp] at hd
      exact absurd hd (by simp)
    | some cp =>
      have hdb : distanceBetween p cp plane = some d := by
        unfold candMetric at hd
        rw [hcp] at hd
        exact hd
      have hstep : findClosestTrackcenterAux p plane (tc :: rest) (some b) (some m) =
          if d < m then findClosestTrackcenterAux p plane rest (some tc) (some d)
          else findClosestTrackcenterAux p plane rest (some b) (some m) := by
        simp only [findClosestTrackcenterAux, hcp, hdb]
      by_cases hlt : d < m
      · rw [hstep, if_pos hlt]
        obtain ⟨c, d', hres, hcm, hle, hmem, hmin⟩ :=
          ih tc d hd (fun t ht => hall t (List.mem_cons_of_mem _ ht))
        refine ⟨c, d', hres, hcm, le_trans hle (le_of_lt hlt), ?_, ?_⟩
        · rcases hmem with rfl | hmem
          · exact Or.inr (List.mem_cons_self _ _)
          · exact Or.inr (List.mem_cons_of_mem _ hmem)
        · intro t ht d'' hd''
          rcases List.mem_cons.mp ht with rfl | ht
          · rw [hd] at hd''
            exact (Option.some.inj hd'') ▸ hle
          · exact hmin t ht d'' hd''
      · rw [hstep, if_neg hlt]
        push_neg at hlt
        obtain ⟨c, d', hres, hcm, hle, hmem, hmin⟩ :=
          ih b m hb (fun t ht => hall t (List.mem_cons_of_mem _ ht))
        refine ⟨c, d', hres, hcm, hle, ?_, ?_⟩
        · rcases hmem with rfl | hmem
          · exact Or.inl rfl
          · exact Or.inr (List.mem_cons_of_mem _ hmem)
        · intro t ht d'' hd''
          rcases List.mem_cons.mp ht with rfl | ht
          · rw [hd] at hd''
            exact (Option.some.inj hd'') ▸ (le_trans hle hlt)
          · exact hmin t ht d'' hd''

/-- C6 (amended): `find_closest_trackcenter` returns a candidate minimizing
the `distance_between` value to its closest sample, where `distance_between`
is the metric of C5 (for plane `xz` the absolute x-difference, not the
plane-projected Euclidean distance). -/
theorem c6_closest_trackcenter_amended (p : P3) (tcs : List (List P3)) (plane : String)
    (hp : plane = ("xz") ∨ plane = ("xy")) (hne : tcs ≠ [])
    (hnonempty : ∀ tc ∈ tcs, tc ≠ []) :
    ∃ c d, findClosestTrackcenter p tcs plane = some c ∧ c ∈ tcs ∧
      candMetric p c plane = some d ∧
      ∀ tc ∈ tcs, ∀ d', candMetric p tc plane = some d' → d ≤ d' := by
  cases tcs with
  | nil => exact absurd rfl hne
  | cons tc0 rest =>
    obtain ⟨d0, hd0⟩ := candMetric_isSome p tc0 plane hp (hnonempty tc0 (by simp))
    cases hcp : findClosestCenterpoint p tc0 plane with
    | none =>
      unfold candMetric at hd0
      rw [hcp] at hd0
      exact absurd hd0 (by simp)
    | some cp =>
      have hdb : distanceBetween p cp plane = some d0 := by
        unfold candMetric at hd0
        rw [hcp] at hd0
        exact hd0
      have hstep0 : findClosestTrackcenter p (tc0 :: rest) plane =
          findClosestTrackcenterAux p plane rest (some tc0) (some d0) := by
        unfold findClosestTrackcenter
        simp only [findClosestTrackcenterAux, hcp, hdb]
      obtain ⟨c, d, hres, hcm, hle, hmem, hmin⟩ :=
        fctAux_min p plane rest tc0 d0 hd0
          (fun t ht => candMetric_isSome p t plane hp
            (hnonempty t (List.mem_cons_of_mem _ ht)))
      refine ⟨c, d, by rw [hstep0]; exact hres, ?_, hcm, ?_⟩
      · rcases hmem with rfl | hmem
        · exact List.mem_cons_self _ _
        · exact List.mem_cons_of_mem _ hmem
      · intro t ht d' hd'
        rcases List.mem_cons.mp ht with rfl | ht
        · rw [hd0] at hd'
          exact (Option.some.inj hd') ▸ hle
        · exact hmin t ht d' hd'

theorem c6_closest_trackcenter_amended_witness :
    ∃ c d, findClosestTrackcenter ⟨0, 0, 0⟩ [[⟨1, 0, 0⟩]] ("xz") = some c ∧
      c ∈ [[(⟨1, 0, 0⟩ : P3)]] ∧ candMetric ⟨0, 0, 0⟩ c ("xz") = some d ∧
      ∀ tc ∈ [[(⟨1, 0, 0⟩ : P3)]], ∀ d',
        candMetric ⟨0, 0, 0⟩ tc ("xz") = some d' → d ≤ d' :=
  c6_closest_trackcenter_amended ⟨0, 0, 0⟩ [[⟨1, 0, 0⟩]] ("xz") (Or.inl rfl)
    (by simp) (by simp)

/-- C6 counterexample: with the query at the origin and candidates whose
closest samples are `(1,0,0)` and `(1/2,0,5)`, the code compares candidates
by `distance_between` with plane `xz`, which is the absolute x-difference
(`1` versus `1/2`), and so returns the second candidate; but the first
candidate is the unique one minimizing the plane-projected 2D Euclidean
distance of the claim (`1 < sqrt(101/4)`). -/
theorem c6_counterexample_xz_metric :
    findClosestTrackcenter ⟨0, 0, 0⟩ [[⟨1, 0, 0⟩], [⟨1 / 2, 0, 5⟩]] ("xz") =
      some [⟨1 / 2, 0, 5⟩] ∧
    findClosestCenterpoint ⟨0, 0, 0⟩ [⟨1, 0, 0⟩] ("xz") = some ⟨1, 0, 0⟩ ∧
    findClosestCenterpoint ⟨0, 0, 0⟩ [⟨1 / 2, 0, 5⟩] ("xz") = some ⟨1 / 2, 0, 5⟩ ∧
    specPlaneDist ⟨0, 0, 0⟩ ⟨1, 0, 0⟩ ("xz") <
      specPlaneDist ⟨0, 0, 0⟩ ⟨1 / 2, 0, 5⟩ ("xz") ∧
    ¬ ([(⟨1 / 2, 0, 5⟩ : P3)] = [(⟨1, 0, 0⟩ : P3)]) := by
  have h1 := findClosestCenterpoint_singleton_xz ⟨0, 0, 0⟩ ⟨1, 0, 0⟩
  have h2 := findClosestCenterpoint_singleton_xz ⟨0, 0, 0⟩ ⟨1 / 2, 0, 5⟩
  have hdb1 : distanceBetween ⟨0, 0, 0⟩ ⟨1, 0, 0⟩ ("xz") = some 1 := by
    unfold distanceBetween
    rw [sdb_plane_xz]
    norm_num
  have hdb2 : distanceBetween ⟨0, 0, 0⟩ ⟨1 / 2, 0, 5⟩ ("xz") = some (1 / 2) := by
    unfold distanceBetween
    rw [sdb_plane_xz]
    norm_num
  refine ⟨?_, h1, h2, ?_, ?_⟩
  · unfold findClosestTrackcenter
    have hstep1 : findClosestTrackcenterAux ⟨0, 0, 0⟩ ("xz")
        [[⟨1, 0, 0⟩], [⟨1 / 2, 0, 5⟩]] none none =
        findClosestTrackcenterAux ⟨0, 0, 0⟩ ("xz") [[⟨1 / 2, 0, 5⟩]]
          (some [⟨1, 0, 0⟩]) (some 1) := by
      simp only [findClosestTrackcenterAux, h1, hdb1]
    have hstep2 : findClosestTrackcenterAux ⟨0, 0, 0⟩ ("xz") [[⟨1 / 2, 0, 5⟩]]
        (some [⟨1, 0, 0⟩]) (some 1) =
        findClosestTrackcenterAux ⟨0, 0, 0⟩ ("xz") []
          (some [⟨1 / 2, 0, 5⟩]) (some (1 / 2)) := by
      simp only [findClosestTrackcenterAux, h2, hdb2]
      rw [if_pos (by norm_num : (1 : ℝ) / 2 < 1)]
    rw [hstep1, hstep2]
    rfl
  · unfold specPlaneDist
    rw [if_neg (by decide), if_neg (by decide), if_neg (by decide), if_neg (by decide),
      if_pos rfl, if_neg (by decide), if_neg (by decide), if_neg (by decide),
      if_neg (by decide), if_pos rfl]
    have hl : Real.sqrt (((0 : ℝ) - 1) ^ 2 + ((0 : ℝ) - 0) ^ 2) = 1 := by
      norm_num
    rw [hl]
    rw [show ((0 : ℝ) - 1 / 2) ^ 2 + ((0 : ℝ) - 5) ^ 2 = 101 / 4 by norm_num]
    rw [Real.lt_sqrt (by norm_num)]
    norm_num
  · intro h
    have := List.head_eq_of_cons_eq h
    have hx : (1 : ℝ) / 2 = 1 := congrArg P3.x this
    norm_num at hx

theorem degToRad_zero : degToRad 0 = 0 := by
  unfold degToRad
  ring

theorem cos_degToRad_zero : Real.cos (degToRad 0) = 1 := by
  rw [degToRad_zero, Real.cos_zero]

theorem sin_degToRad_zero : Real.sin (degToRad 0) = 0 := by
  rw [degToRad_zero, Real.sin_zero]

theorem generateStraightCenterpoints_get? (len : ℝ) (n : Nat) (a : ℝ) (p : P3)
    (i : Nat) (h : i < n) :
    (generateStraightCenterpoints len n a p).get? i =
      some ⟨p.x + p.x * Real.cos (degToRad a) -
          (p.z + len * i / ((n : ℝ) - 1)) * Real.sin (degToRad a),
        p.y,
        p.z + p.x * Real.sin (degToRad a) +
          (p.z + len * i / ((n : ℝ) - 1)) * Real.cos (degToRad a)⟩ := by
  unfold generateStraightCenterpoints linspaceF
  simp only [List.get?_map, List.get?_range h, Option.map_some']
  refine congrArg some ?_
  ext <;> dsimp <;> ring_nf

/-- C4 counterexample: for `start_point = (1,0,0)` and `start_angle = 0` the
code adds the rotated copy of the constant x-array on top of `start_point.x`
again, so the first sample is `(2,0,0)`, not the start point. -/
theorem c4_counterexample_first_sample :
    (generateStraightCenterpoints 1 2 0 ⟨1, 0, 0⟩).get? 0 = some ⟨2, 0, 0⟩ ∧
    ¬ ((⟨2, 0, 0⟩ : P3) = ⟨1, 0, 0⟩) := by
  constructor
  · rw [generateStraightCenterpoints_get? 1 2 0 ⟨1, 0, 0⟩ 0 (by norm_num)]
    refine congrArg some ?_
    ext <;> dsimp <;> norm_num [cos_degToRad_zero, sin_degToRad_zero]
  · intro h
    have hx := congrArg P3.x h
    norm_num at hx

/-- C4 (amended): `generate_straight_centerpoints` returns `num_points`
samples with constant consecutive displacement
`(-(L/(n-1)) sin a, 0, (L/(n-1)) cos a)` (evenly spaced along a segment of
length `|L|` in the rotated direction); the first sample equals the start
point when the start point is the origin (for other start points the whole
segment is offset, as the counterexample shows); the concrete scenario
`length = 10, num_points = 10, start_angle = 0, start_point = (0,0,0)` has
first sample `(0,0,0)`, last sample `(0,0,10)` and strictly increasing z. -/
theorem c4_straight_centerpoints_amended :
    (∀ (len a : ℝ) (p : P3) (n : Nat),
      (generateStraightCenterpoints len n a p).length = n) ∧
    (∀ (len a : ℝ) (p : P3) (n i : Nat), i + 1 < n →
      ∃ s t, (generateStraightCenterpoints len n a p).get? i = some s ∧
        (generateStraightCenterpoints len n a p).get? (i + 1) = some t ∧
        t.x - s.x = -(len / ((n : ℝ) - 1)) * Real.sin (degToRad a) ∧
        t.y = s.y ∧
        t.z - s.z = (len / ((n : ℝ) - 1)) * Real.cos (degToRad a)) ∧
    (∀ (len a : ℝ) (n : Nat), 0 < n →
      (generateStraightCenterpoints len n a ⟨0, 0, 0⟩).get? 0 = some ⟨0, 0, 0⟩) ∧
    ((generateStraightCenterpoints 10 10 0 ⟨0, 0, 0⟩).get? 0 = some ⟨0, 0, 0⟩) ∧
    ((generateStraightCenterpoints 10 10 0 ⟨0, 0, 0⟩).get? 9 = some ⟨0, 0, 10⟩) ∧
    (∀ i j : Nat, i < j → j < 10 → ∃ s t,
      (generateStraightCenterpoints 10 10 0 ⟨0, 0, 0⟩).get? i = some s ∧
      (generateStraightCenterpoints 10 10 0 ⟨0, 0, 0⟩).get? j = some t ∧
      s.z < t.z) := by
  have hfirst : ∀ (len a : ℝ) (n : Nat), 0 < n →
      (generateStraightCenterpoints len n a ⟨0, 0, 0⟩).get? 0 = some ⟨0, 0, 0⟩ := by
    intro len a n hn
    rw [generateStraightCenterpoints_get? len n a ⟨0, 0, 0⟩ 0 hn]
    refine congrArg some ?_
    ext <;> dsimp <;> push_cast <;> ring_nf
  refine ⟨?_, ?_, hfirst, ?_, ?_, ?_⟩
  · intro len a p n
    unfold generateStraightCenterpoints linspaceF
    simp
  · intro len a p n i hi
    refine ⟨_, _, generateStraightCenterpoints_get? len n a p i (by omega),
      generateStraightCenterpoints_get? len n a p (i + 1) hi, ?_, ?_, ?_⟩
    · dsimp
      push_cast
      ring
    · dsimp
    · dsimp
      push_cast
      ring
  · exact hfirst 10 0 10 (by norm_num)
  · rw [generateStraightCenterpoints_get? 10 10 0 ⟨0, 0, 0⟩ 9 (by norm_num)]
    refine congrArg some ?_
    ext <;> dsimp <;> norm_num [cos_degToRad_zero, sin_degToRad_zero]
  · intro i j hij hj
    refine ⟨_, _, generateStraightCenterpoints_get? 10 10 0 ⟨0, 0, 0⟩ i (by omega),
      generateStraightCenterpoints_get? 10 10 0 ⟨0, 0, 0⟩ j hj, ?_⟩
    dsimp
    rw [cos_degToRad_zero, sin_degToRad_zero]
    have hcast : (i : ℝ) < (j : ℝ) := by exact_mod_cast hij
    push_cast
    norm_num
    linarith

/-! ### Helper lemmas for the trilist deletion loops -/

theorem chunk3_length_of_three_mul : ∀ (k : Nat) (l : List Nat),
    l.length = 3 * k → (chunk3 l).length = k := by
  intro k
  induction k with
  | zero =>
    intro l h
    have hl : l = [] := List.length_eq_zero.mp (by omega)
    subst hl
    rfl
  | succ k ih =>
    intro l h
    cases l with
    | nil => simp at h
    | cons a l1 =>
      cases l1 with
      | nil => simp at h; omega
      | cons b l2 =>
        cases l2 with
        | nil => simp at h; omega
        | cons c rest =>
          have hr : rest.length = 3 * k := by
            simp only [List.length_cons] at h
            omega
          show (chunk3 (a :: b :: c :: rest)).length = k + 1
          rw [chunk3]
          simp [ih rest hr]

theorem filterIdxs_bounds (pred : List Nat → Bool) :
    ∀ (ts : List (List Nat)) (s j : Nat), j ∈ filterIdxs pred ts s →
      s ≤ j ∧ j < s + ts.length := by
  intro ts
  induction ts with
  | nil => intro s j hj; simp [filterIdxs] at hj
  | cons t ts ih =>
    intro s j hj
    unfold filterIdxs at hj
    by_cases hp : pred t
    · rw [if_pos hp] at hj
      rcases List.mem_cons.mp hj with rfl | hj
      · simp
      · have := ih (s + 1) j hj
        simp only [List.length_cons]
        omega
    · rw [if_neg hp] at hj
      have := ih (s + 1) j hj
      simp only [List.length_cons]
      omega

theorem filterIdxs_chain (pred : List Nat → Bool) :
    ∀ (ts : List (List Nat)) (s : Nat),
      List.Chain' (· < ·) (filterIdxs pred ts s) := by
  intro ts
  induction ts with
  | nil => intro s; simp [filterIdxs]
  | cons t ts ih =>
    intro s
    unfold filterIdxs
    by_cases hp : pred t
    · rw [if_pos hp, List.chain'_cons']
      refine ⟨?_, ih (s + 1)⟩
      intro y hy
      have hmem : y ∈ filterIdxs pred ts (s + 1) := List.mem_of_mem_head? hy
      have := filterIdxs_bounds pred ts (s + 1) y hmem
      omega
    · rw [if_neg hp]
      exact ih (s + 1)

theorem chain_head_lt_total (total : Nat) :
    ∀ (rest : List Nat) (i : Nat), List.Chain' (· < ·) (i :: rest) →
      (∀ j ∈ i :: rest, j < total) → i + rest.length < total := by
  intro rest
  induction rest with
  | nil =>
    intro i _ hb
    simpa using hb i (by simp)
  | cons r rs ih =>
    intro i hch hb
    have hir : i < r := (List.chain'_cons.mp hch).1
    have hch' : List.Chain' (· < ·) (r :: rs) := (List.chain'_cons.mp hch).2
    have := ih r hch' (fun j hj => hb j (List.mem_cons_of_mem _ hj))
    simp only [List.length_cons]
    omega

theorem chain_length_le_total (total : Nat) (idxs : List Nat)
    (hch : List.Chain' (· < ·) idxs) (hb : ∀ j ∈ idxs, j < total) :
    idxs.length ≤ total := by
  cases idxs with
  | nil => simp
  | cons i rest =>
    have := chain_head_lt_total total rest i hch hb
    simp only [List.length_cons]
    omega

theorem delSlice_length {α : Type} (l : List α) (s c : Nat) (h : s + c ≤ l.length) :
    (delSlice l s c).length = l.length - c := by
  unfold delSlice
  rw [List.length_append, List.length_take, List.length_drop,
    Nat.min_eq_left (by omega)]
  omega

theorem delTrianglesAt_nil (t : TrilistD) : delTrianglesAt t [] = t := rfl

theorem delTrianglesAt_cons (t : TrilistD) (i : Nat) (rest : List Nat) :
    delTrianglesAt t (i :: rest) =
      { delTrianglesAt t rest with
        vertexIdxs := delSlice (delTrianglesAt t rest).vertexIdxs (i * 3) 3
        normalIdxs := delSlice (delTrianglesAt t rest).normalIdxs (i * 2) 2
        flags := delSlice (delTrianglesAt t rest).flags i 1 } := by
  unfold delTrianglesAt
  rw [List.reverse_cons, List.foldl_append]
  rfl

theorem delTrianglesAt_lengths (idxs : List Nat) (t : TrilistD) (total : Nat)
    (hch : List.Chain' (· < ·) idxs) (hb : ∀ j ∈ idxs, j < total)
    (hv : 3 * total ≤ t.vertexIdxs.length) (hn : 2 * total ≤ t.normalIdxs.length)
    (hf : total ≤ t.flags.length) :
    (delTrianglesAt t idxs).vertexIdxs.length = t.vertexIdxs.length - 3 * idxs.length ∧
    (delTrianglesAt t idxs).normalIdxs.length = t.normalIdxs.length - 2 * idxs.length ∧
    (delTrianglesAt t idxs).flags.length = t.flags.length - idxs.length := by
  induction idxs with
  | nil => simp [delTrianglesAt_nil]
  | cons i rest ih =>
    have hch2 : List.Chain' (· < ·) rest := hch.tail
    have hb2 : ∀ j ∈ rest, j < total := fun j hj => hb j (List.mem_cons_of_mem _ hj)
    have hlen : i + rest.length < total := chain_head_lt_total total rest i hch hb
    obtain ⟨ihv, ihn, ihf⟩ := ih hch2 hb2
    simp only [delTrianglesAt_cons, List.length_cons]
    refine ⟨?_, ?_, ?_⟩
    · rw [delSlice_length _ _ _ (by omega)]
      omega
    · rw [delSlice_length _ _ _ (by omega)]
      omega
    · rw [delSlice_length _ _ _ (by omega)]
      omega

theorem removal_lengths (t : TrilistD) (pred : List Nat → Bool)
    (hmod : t.vertexIdxs.length % 3 = 0)
    (hnorm : t.normalIdxs.length = 2 * (t.vertexIdxs.length / 3))
    (hflags : t.flags.length = t.vertexIdxs.length / 3) :
    (delTrianglesAt t (filterIdxs pred (chunk3 t.vertexIdxs) 0)).vertexIdxs.length % 3 = 0 ∧
    (delTrianglesAt t (filterIdxs pred (chunk3 t.vertexIdxs) 0)).normalIdxs.length =
      2 * ((delTrianglesAt t (filterIdxs pred (chunk3 t.vertexIdxs) 0)).vertexIdxs.length / 3) ∧
    (delTrianglesAt t (filterIdxs pred (chunk3 t.vertexIdxs) 0)).flags.length =
      (delTrianglesAt t (filterIdxs pred (chunk3 t.vertexIdxs) 0)).vertexIdxs.length / 3 := by
  have hchunk : (chunk3 t.vertexIdxs).length = t.vertexIdxs.length / 3 :=
    chunk3_length_of_three_mul _ _ (by omega)
  have hch := filterIdxs_chain pred (chunk3 t.vertexIdxs) 0
  have hb : ∀ j ∈ filterIdxs pred (chunk3 t.vertexIdxs) 0,
      j < t.vertexIdxs.length / 3 := by
    intro j hj
    have := filterIdxs_bounds pred (chunk3 t.vertexIdxs) 0 j hj
    rw [hchunk] at this
    omega
  have hk := chain_length_le_total _ _ hch hb
  obtain ⟨hv, hn, hf⟩ := delTrianglesAt_lengths _ t (t.vertexIdxs.length / 3) hch hb
    (by omega) (by omega) (by omega)
  refine ⟨?_, ?_, ?_⟩
  · rw [hv]; omega
  · rw [hn, hv]; omega
  · rw [hf, hv]; omega

theorem triangleGuards_scope_t_v1 (t : TrilistD) (v1 v2 v3 : VertexRef)
    (h : triangleGuards t v1 v2 v3 = none) :
    t.lodDlevel = v1.lodDlevel ∧ t.subobjectIdx = v1.subobjectIdx := by
  unfold triangleGuards at h
  by_cases g1 : v1.lodDlevel ≠ v2.lodDlevel
  · rw [if_pos g1] at h; exact absurd h (by simp)
  · rw [if_neg g1] at h
    by_cases g2 : v1.lodDlevel ≠ v3.lodDlevel
    · rw [if_pos g2] at h; exact absurd h (by simp)
    · rw [if_neg g2] at h
      by_cases g3 : v2.lodDlevel ≠ v3.lodDlevel
      · rw [if_pos g3] at h; exact absurd h (by simp)
      · rw [if_neg g3] at h
        by_cases g4 : v1.subobjectIdx ≠ v2.subobjectIdx
        · rw [if_pos g4] at h; exact absurd h (by simp)
        · rw [if_neg g4] at h
          by_cases g5 : v1.subobjectIdx ≠ v3.subobjectIdx
          · rw [if_pos g5] at h; exact absurd h (by simp)
          · rw [if_neg g5] at h
            by_cases g6 : v2.subobjectIdx ≠ v3.subobjectIdx
            · rw [if_pos g6] at h; exact absurd h (by simp)
            · rw [if_neg g6] at h
              by_cases g7 : t.lodDlevel ≠ v1.lodDlevel
              · rw [if_pos g7] at h; exact absurd h (by simp)
              · rw [if_neg g7] at h
                by_cases g8 : t.subobjectIdx ≠ v1.subobjectIdx
                · rw [if_pos g8] at h; exact absurd h (by simp)
                · exact ⟨not_ne_iff.mp g7, not_ne_iff.mp g8⟩

/-- C2: under the stride invariants and matching scopes, each of
`insert_triangle_between`, `remove_triangle_between` and
`remove_triangles_connected_to_vertex` succeeds and leaves
`len(vertex_idxs) % 3 = 0`, `len(normal_idxs) = 2 * (len(vertex_idxs) / 3)`
and `len(flags) = len(vertex_idxs) / 3` true on the resulting trilist. -/
theorem c2_trilist_mutations_preserve_stride_invariants
    (t : TrilistD) (v1 v2 v3 : VertexRef) (arena : Nat)
    (hmod : t.vertexIdxs.length % 3 = 0)
    (hnorm : t.normalIdxs.length = 2 * (t.vertexIdxs.length / 3))
    (hflags : t.flags.length = t.vertexIdxs.length / 3)
    (hscope : triangleGuards t v1 v2 v3 = none) :
    (∃ t2 arena2, insertTriangleBetween t v1 v2 v3 arena = .ok (t2, arena2) ∧
      t2.vertexIdxs.length % 3 = 0 ∧
      t2.normalIdxs.length = 2 * (t2.vertexIdxs.length / 3) ∧
      t2.flags.length = t2.vertexIdxs.length / 3) ∧
    (∃ t3, removeTriangleBetween t v1 v2 v3 = .ok t3 ∧
      t3.vertexIdxs.length % 3 = 0 ∧
      t3.normalIdxs.length = 2 * (t3.vertexIdxs.length / 3) ∧
      t3.flags.length = t3.vertexIdxs.length / 3) ∧
    (∃ t4, removeTrianglesConnectedToVertex t v1 = .ok t4 ∧
      t4.vertexIdxs.length % 3 = 0 ∧
      t4.normalIdxs.length = 2 * (t4.vertexIdxs.length / 3) ∧
      t4.flags.length = t4.vertexIdxs.length / 3) := by
  refine ⟨?_, ?_, ?_⟩
  · refine ⟨{ t with
        vertexIdxs := t.vertexIdxs ++ [v1.vertexIdx, v2.vertexIdx, v3.vertexIdx]
        normalIdxs := t.normalIdxs ++ [arena, 3]
        flags := t.flags ++ [("00000000")] }, arena + 1, ?_, ?_, ?_, ?_⟩
    · unfold insertTriangleBetween
      rw [hscope]
    · simp only [List.length_append, List.length_cons, List.length_nil]
      omega
    · simp only [List.length_append, List.length_cons, List.length_nil]
      omega
    · simp only [List.length_append, List.length_cons, List.length_nil]
      omega
  · obtain ⟨hi1, hi2, hi3⟩ := removal_lengths t
      (fun tri => tri.contains v1.vertexIdx && tri.contains v2.vertexIdx &&
        tri.contains v3.vertexIdx) hmod hnorm hflags
    refine ⟨_, ?_, hi1, hi2, hi3⟩
    unfold removeTriangleBetween
    rw [hscope]
  · obtain ⟨heq1, heq2⟩ := triangleGuards_scope_t_v1 t v1 v2 v3 hscope
    obtain ⟨hi1, hi2, hi3⟩ := removal_lengths t
      (fun tri => tri.contains v1.vertexIdx) hmod hnorm hflags
    refine ⟨_, ?_, hi1, hi2, hi3⟩
    unfold removeTrianglesConnectedToVertex
    rw [if_neg (by simp [heq1]), if_neg (by simp [heq2])]

theorem c2_trilist_mutations_preserve_stride_invariants_witness :
    (∃ t2 arena2, insertTriangleBetween ⟨[0, 1, 2], [5, 3], [("00000000")], 0, 0⟩
        ⟨0, 0, 0⟩ ⟨1, 0, 0⟩ ⟨2, 0, 0⟩ 9 = .ok (t2, arena2) ∧
      t2.vertexIdxs.length % 3 = 0 ∧
      t2.normalIdxs.length = 2 * (t2.vertexIdxs.length / 3) ∧
      t2.flags.length = t2.vertexIdxs.length / 3) ∧
    (∃ t3, removeTriangleBetween ⟨[0, 1, 2], [5, 3], [("00000000")], 0, 0⟩
        ⟨0, 0, 0⟩ ⟨1, 0, 0⟩ ⟨2, 0, 0⟩ = .ok t3 ∧
      t3.vertexIdxs.length % 3 = 0 ∧
      t3.normalIdxs.length = 2 * (t3.vertexIdxs.length / 3) ∧
      t3.flags.length = t3.vertexIdxs.length / 3) ∧
    (∃ t4, removeTrianglesConnectedToVertex ⟨[0, 1, 2], [5, 3], [("00000000")], 0, 0⟩
        ⟨0, 0, 0⟩ = .ok t4 ∧
      t4.vertexIdxs.length % 3 = 0 ∧
      t4.normalIdxs.length = 2 * (t4.vertexIdxs.length / 3) ∧
      t4.flags.length = t4.vertexIdxs.length / 3) :=
  c2_trilist_mutations_preserve_stride_invariants
    ⟨[0, 1, 2], [5, 3], [("00000000")], 0, 0⟩ ⟨0, 0, 0⟩ ⟨1, 0, 0⟩ ⟨2, 0, 0⟩ 9
    (by decide) (by decide) (by decide) (by decide)


/-! ### Helper lemmas for the add_point / add_normal scans -/

theorem addPointAux_skip (nl : List Char) :
    ∀ (pre rest : List (List Char)) (cnt : Nat),
      (∀ l ∈ pre, pointsOpenB l = false) →
      addPointAux nl (pre ++ rest) false cnt =
        (addPointAux nl rest false cnt).map (fun pr => (pr.1, pre ++ pr.2)) := by
  intro pre
  induction pre with
  | nil =>
    intro rest cnt _
    simp only [List.nil_append]
    cases h : addPointAux nl rest false cnt <;> simp [h]
  | cons l pre ih =>
    intro rest cnt hpre
    have hl : pointsOpenB l = false := hpre l (by simp)
    have hpre2 : ∀ x ∈ pre, pointsOpenB x = false :=
      fun x hx => hpre x (by simp [hx])
    show addPointAux nl (l :: (pre ++ rest)) false cnt = _
    simp only [addPointAux, hl, Bool.or_false, Bool.false_and, Bool.false_or]
    rw [if_neg (by simp), if_neg (by simp)]
    rw [ih rest cnt hpre2]
    cases h : addPointAux nl rest false cnt <;> simp [h]

theorem addPointAux_records (nl : List Char) :
    ∀ (records rest : List (List Char)) (cnt : Nat),
      (∀ l ∈ records, pointOpenB l = true) →
      addPointAux nl (records ++ rest) true cnt =
        (addPointAux nl rest true (cnt + records.length)).map
          (fun pr => (pr.1, records ++ pr.2)) := by
  intro records
  induction records with
  | nil =>
    intro rest cnt _
    simp only [List.nil_append]
    cases h : addPointAux nl rest true cnt <;> simp [h]
  | cons l records ih =>
    intro rest cnt hrec
    have hl : pointOpenB l = true := hrec l (by simp)
    have hrec2 : ∀ x ∈ records, pointOpenB x = true :=
      fun x hx => hrec x (by simp [hx])
    show addPointAux nl (l :: (records ++ rest)) true cnt = _
    simp only [addPointAux, hl, Bool.true_or, Bool.true_and, Bool.not_true,
      Bool.and_false]
    rw [if_neg (by simp), if_pos trivial]
    rw [ih rest (cnt + 1) hrec2]
    have hn : cnt + 1 + records.length = cnt + (records.length + 1) := by omega
    rw [hn]
    cases h : addPointAux nl rest true (cnt + (records.length + 1)) <;> simp [h]

theorem addPointAux_close (nl closer : List Char) (post : List (List Char)) (cnt : Nat)
    (hc : closeParenB closer = true) (hnp : pointOpenB closer = false) :
    addPointAux nl (closer :: post) true cnt = some (cnt, nl :: closer :: post) := by
  simp [addPointAux, hc, hnp]

theorem setPointCount_skip :
    ∀ (pre rest : List (List Char)) (n : Nat),
      (∀ l ∈ pre, pointsOpenB l = false) →
      setPointCount (pre ++ rest) n = pre ++ setPointCount rest n := by
  intro pre
  induction pre with
  | nil => intro rest n _; rfl
  | cons l pre ih =>
    intro rest n hpre
    have hl : pointsOpenB l = false := hpre l (by simp)
    show setPointCount (l :: (pre ++ rest)) n = _
    simp only [setPointCount]
    rw [if_neg (by simp [hl])]
    rw [ih rest n (fun x hx => hpre x (by simp [hx]))]
    rfl

theorem setPointCount_hit (header : List Char) (rest : List (List Char)) (n : Nat)
    (hh : pointsOpenB header = true) :
    setPointCount (header :: rest) n = setTok2 header (natToChars n) :: rest := by
  simp [setPointCount, hh]

theorem setTok2_eval (header t0 t1 ctok tok : List Char) (rts : List (List Char))
    (hsplit : splitSpace header = t0 :: t1 :: ctok :: rts) :
    setTok2 header tok = joinSpace (t0 :: t1 :: tok :: rts) := by
  unfold setTok2
  rw [hsplit]
  rfl

theorem parsedPointCount_append (l1 l2 : List (List Char)) :
    parsedPointCount (l1 ++ l2) = parsedPointCount l1 + parsedPointCount l2 := by
  simp [parsedPointCount, List.filter_append]

theorem parsedPointCount_zero (L : List (List Char))
    (h : ∀ l ∈ L, pointRecB l = false) : parsedPointCount L = 0 := by
  unfold parsedPointCount
  rw [List.filter_eq_nil.mpr (fun a ha => by simp [h a ha])]
  rfl

theorem parsedPointCount_all (L : List (List Char))
    (h : ∀ l ∈ L, pointRecB l = true) : parsedPointCount L = L.length := by
  unfold parsedPointCount
  rw [List.filter_eq_self.mpr h]

theorem parsedPointCount_cons_false (l : List Char) (L : List (List Char))
    (h : pointRecB l = false) :
    parsedPointCount (l :: L) = parsedPointCount L := by
  simp [parsedPointCount, List.filter_cons, h]

theorem parsedPointCount_cons_true (l : List Char) (L : List (List Char))
    (h : pointRecB l = true) :
    parsedPointCount (l :: L) = parsedPointCount L + 1 := by
  simp [parsedPointCount, List.filter_cons, h]

theorem declaredPointTok_eval (pre rest : List (List Char)) (header : List Char)
    (hpre : ∀ l ∈ pre, pointsOpenB l = false) (hh : pointsOpenB header = true) :
    declaredPointTok (pre ++ header :: rest) = (splitSpace header).get? 2 := by
  unfold declaredPointTok
  rw [List.find?_append, List.find?_eq_none.mpr (fun x hx => by simp [hpre x hx]),
    Option.none_or, List.find?_cons_of_pos _ hh]

theorem addNormalAux_skip (nl : List Char) :
    ∀ (pre rest : List (List Char)) (cnt : Nat),
      (∀ l ∈ pre, normalsOpenB l = false) →
      addNormalAux nl (pre ++ rest) false cnt =
        (addNormalAux nl rest false cnt).map (fun pr => (pr.1, pre ++ pr.2)) := by
  intro pre
  induction pre with
  | nil =>
    intro rest cnt _
    simp only [List.nil_append]
    cases h : addNormalAux nl rest false cnt <;> simp [h]
  | cons l pre ih =>
    intro rest cnt hpre
    have hl : normalsOpenB l = false := hpre l (by simp)
    have hpre2 : ∀ x ∈ pre, normalsOpenB x = false :=
      fun x hx => hpre x (by simp [hx])
    show addNormalAux nl (l :: (pre ++ rest)) false cnt = _
    simp only [addNormalAux, hl, Bool.or_false, Bool.false_and, Bool.false_or]
    rw [if_neg (by simp), if_neg (by simp)]
    rw [ih rest cnt hpre2]
    cases h : addNormalAux nl rest false cnt <;> simp [h]

theorem addNormalAux_records (nl : List Char) :
    ∀ (records rest : List (List Char)) (cnt : Nat),
      (∀ l ∈ records, vectorOpenB l = true ∧
        (closeParenB l && decide (l.length < 6)) = false) →
      addNormalAux nl (records ++ rest) true cnt =
        (addNormalAux nl rest true (cnt + records.length)).map
          (fun pr => (pr.1, records ++ pr.2)) := by
  intro records
  induction records with
  | nil =>
    intro rest cnt _
    simp only [List.nil_append]
    cases h : addNormalAux nl rest true cnt <;> simp [h]
  | cons l records ih =>
    intro rest cnt hrec
    have hl : vectorOpenB l = true := (hrec l (by simp)).1
    have hbl : (closeParenB l && decide (l.length < 6)) = false := (hrec l (by simp)).2
    have hrec2 : ∀ x ∈ records, vectorOpenB x = true ∧
        (closeParenB x && decide (x.length < 6)) = false :=
      fun x hx => hrec x (by simp [hx])
    show addNormalAux nl (l :: (records ++ rest)) true cnt = _
    simp only [addNormalAux, hl, Bool.true_or, Bool.true_and, Bool.and_self]
    rw [if_neg (by simp [hbl]), if_pos trivial]
    rw [ih rest (cnt + 1) hrec2]
    have hn : cnt + 1 + records.length = cnt + (records.length + 1) := by omega
    rw [hn]
    cases h : addNormalAux nl rest true (cnt + (records.length + 1)) <;> simp [h]

theorem addNormalAux_close (nl closer : List Char) (post : List (List Char)) (cnt : Nat)
    (hc : (closeParenB closer && decide (closer.length < 6)) = true) :
    addNormalAux nl (closer :: post) true cnt = some (cnt, nl :: closer :: post) := by
  have h1 : closeParenB closer = true := by
    cases hx : closeParenB closer
    · rw [hx] at hc; simp at hc
    · rfl
  have h2 : closer.length < 6 := by
    cases hx : decide (closer.length < 6)
    · rw [hx] at hc; simp at hc
    · exact of_decide_eq_true hx
  simp [addNormalAux, h1, h2]

theorem setNormalCount_skip :
    ∀ (pre rest : List (List Char)) (n : Nat),
      (∀ l ∈ pre, normalsOpenB l = false) →
      setNormalCount (pre ++ rest) n = pre ++ setNormalCount rest n := by
  intro pre
  induction pre with
  | nil => intro rest n _; rfl
  | cons l pre ih =>
    intro rest n hpre
    have hl : normalsOpenB l = false := hpre l (by simp)
    show setNormalCount (l :: (pre ++ rest)) n = _
    simp only [setNormalCount]
    rw [if_neg (by simp [hl])]
    rw [ih rest n (fun x hx => hpre x (by simp [hx]))]
    rfl

theorem setNormalCount_hit (header : List Char) (rest : List (List Char)) (n : Nat)
    (hh : normalsOpenB header = true) :
    setNormalCount (header :: rest) n = setTok2 header (natToChars n) :: rest := by
  simp [setNormalCount, hh]

theorem parsedNormalCountAux_skip :
    ∀ (pre rest : List (List Char)),
      (∀ l ∈ pre, normalsOpenB l = false) →
      parsedNormalCountAux (pre ++ rest) false = parsedNormalCountAux rest false := by
  intro pre
  induction pre with
  | nil => intro rest _; rfl
  | cons l pre ih =>
    intro rest hpre
    have hl : normalsOpenB l = false := hpre l (by simp)
    show parsedNormalCountAux (l :: (pre ++ rest)) false = _
    simp only [parsedNormalCountAux, hl, Bool.or_false, Bool.false_and]
    rw [if_neg (by simp), if_neg (by simp), Nat.zero_add]
    exact ih rest (fun x hx => hpre x (by simp [hx]))

theorem parsedNormalCountAux_records :
    ∀ (records rest : List (List Char)),
      (∀ l ∈ records, vectorOpenB l = true) →
      parsedNormalCountAux (records ++ rest) true =
        records.length + parsedNormalCountAux rest true := by
  intro records
  induction records with
  | nil => intro rest _; simp
  | cons l records ih =>
    intro rest hrec
    have hl : vectorOpenB l = true := hrec l (by simp)
    show parsedNormalCountAux (l :: (records ++ rest)) true = _
    simp only [parsedNormalCountAux, hl, Bool.true_or, Bool.true_and, Bool.not_true,
      Bool.and_false]
    rw [if_pos trivial, if_neg (by simp)]
    rw [ih rest (fun x hx => hrec x (by simp [hx]))]
    simp only [List.length_cons]
    omega

theorem parsedNormalCountAux_close (closer : List Char) (post : List (List Char))
    (hc : closeParenB closer = true) (hnv : vectorOpenB closer = false)
    (hpost : ∀ l ∈ post, normalsOpenB l = false) :
    parsedNormalCountAux (closer :: post) true = 0 := by
  show parsedNormalCountAux (closer :: post) true = 0
  simp only [parsedNormalCountAux, hc, hnv, Bool.true_or, Bool.true_and,
    Bool.not_false, Bool.and_false, Bool.and_true]
  rw [if_neg (by simp), if_pos trivial]
  have := parsedNormalCountAux_skip post [] hpost
  simpa using this

theorem parsedNormalCountAux_header (header : List Char) (rest : List (List Char))
    (hh : normalsOpenB header = true) (hc : closeParenB header = false)
    (hnv : vectorOpenB header = false) :
    parsedNormalCountAux (header :: rest) false = parsedNormalCountAux rest true := by
  simp only [parsedNormalCountAux, hh, hc, hnv, Bool.or_false, Bool.false_or,
    Bool.true_and, Bool.and_false, Bool.false_and]
  rw [if_neg (by simp), if_neg (by simp), Nat.zero_add]

theorem declaredNormalTok_eval (pre rest : List (List Char)) (header : List Char)
    (hpre : ∀ l ∈ pre, normalsOpenB l = false) (hh : normalsOpenB header = true) :
    declaredNormalTok (pre ++ header :: rest) = (splitSpace header).get? 2 := by
  unfold declaredNormalTok
  rw [List.find?_append, List.find?_eq_none.mpr (fun x hx => by simp [hpre x hx]),
    Option.none_or, List.find?_cons_of_pos _ hh]

theorem addPoint_spec (pre records post : List (List Char))
    (header closer t0 t1 ctok xs ys zs : List Char) (rts : List (List Char))
    (hpre : ∀ l ∈ pre, pointsOpenB l = false)
    (hprerec : ∀ l ∈ pre, pointRecB l = false)
    (hsplit : splitSpace header = t0 :: t1 :: ctok :: rts)
    (hhopen : pointsOpenB header = true)
    (hhclose : closeParenB header = false)
    (hhrec : pointOpenB header = false)
    (hrec : ∀ l ∈ records, pointOpenB l = true ∧ uvPointOpenB l = false)
    (hclose : closeParenB closer = true)
    (hcloserec : pointOpenB closer = false)
    (hpost : ∀ l ∈ post, pointRecB l = false)
    (hnewopen : pointOpenB (pointRecLine xs ys zs) = true)
    (hnewuv : uvPointOpenB (pointRecLine xs ys zs) = false)
    (hsplit2 : splitSpace (joinSpace (t0 :: t1 :: natToChars (records.length + 1) :: rts)) =
      t0 :: t1 :: natToChars (records.length + 1) :: rts)
    (hh2open : pointsOpenB (joinSpace (t0 :: t1 :: natToChars (records.length + 1) :: rts)) = true)
    (hh2rec : pointRecB (joinSpace (t0 :: t1 :: natToChars (records.length + 1) :: rts)) = false)
    (hdecl : ctok = natToChars records.length) :
    addPoint (pre ++ header :: (records ++ closer :: post)) xs ys zs =
      some (records.length,
        pre ++ joinSpace (t0 :: t1 :: natToChars (records.length + 1) :: rts) ::
          (records ++ pointRecLine xs ys zs :: closer :: post)) ∧
    parsedPointCount (pre ++ header :: (records ++ closer :: post)) = records.length ∧
    parsedPointCount
      (pre ++ joinSpace (t0 :: t1 :: natToChars (records.length + 1) :: rts) ::
        (records ++ pointRecLine xs ys zs :: closer :: post)) = records.length + 1 ∧
    declaredPointTok (pre ++ header :: (records ++ closer :: post)) =
      some (natToChars records.length) ∧
    declaredPointTok
      (pre ++ joinSpace (t0 :: t1 :: natToChars (records.length + 1) :: rts) ::
        (records ++ pointRecLine xs ys zs :: closer :: post)) =
      some (natToChars (records.length + 1)) := by
  have hrecB : ∀ l ∈ records, pointRecB l = true := by
    intro l hl
    simp [pointRecB, (hrec l hl).1, (hrec l hl).2]
  have hnewB : pointRecB (pointRecLine xs ys zs) = true := by
    simp [pointRecB, hnewopen, hnewuv]
  have haux : addPointAux (pointRecLine xs ys zs)
      (pre ++ header :: (records ++ closer :: post)) false 0 =
      some (records.length,
        pre ++ header :: (records ++ pointRecLine xs ys zs :: closer :: post)) := by
    rw [addPointAux_skip _ pre _ 0 hpre]
    have hh : addPointAux (pointRecLine xs ys zs)
        (header :: (records ++ closer :: post)) false 0 =
        (addPointAux (pointRecLine xs ys zs) (records ++ closer :: post) true 0).map
          (fun pr => (pr.1, header :: pr.2)) := by
      simp only [addPointAux, hhopen, Bool.false_or, hhclose, hhrec, Bool.and_false,
        Bool.true_and]
      rw [if_neg (by simp), if_neg (by simp)]
    rw [hh, addPointAux_records _ records _ 0 (fun l hl => (hrec l hl).1),
      addPointAux_close _ closer post _ hclose hcloserec]
    simp
  refine ⟨?_, ?_, ?_, ?_, ?_⟩
  · unfold addPoint
    rw [haux]
    simp only [Option.map_some']
    rw [setPointCount_skip pre _ _ hpre, setPointCount_hit header _ _ hhopen,
      setTok2_eval header t0 t1 ctok (natToChars (records.length + 1)) rts hsplit]
  · rw [parsedPointCount_append, parsedPointCount_zero pre hprerec,
      parsedPointCount_cons_false header _ (by simp [pointRecB, hhrec]),
      parsedPointCount_append, parsedPointCount_all records hrecB,
      parsedPointCount_cons_false closer _ (by simp [pointRecB, hcloserec]),
      parsedPointCount_zero post hpost]
    omega
  · rw [parsedPointCount_append, parsedPointCount_zero pre hprerec,
      parsedPointCount_cons_false _ _ hh2rec,
      parsedPointCount_append, parsedPointCount_all records hrecB,
      parsedPointCount_cons_true _ _ hnewB,
      parsedPointCount_cons_false closer _ (by simp [pointRecB, hcloserec]),
      parsedPointCount_zero post hpost]
    omega
  · rw [declaredPointTok_eval pre _ header hpre hhopen, hsplit, hdecl]
    rfl
  · rw [declaredPointTok_eval pre _ _ hpre hh2open, hsplit2]
    rfl

theorem addNormal_spec (pre records post : List (List Char))
    (header closer t0 t1 ctok xs ys zs : List Char) (rts : List (List Char))
    (hpre : ∀ l ∈ pre, normalsOpenB l = false)
    (hsplit : splitSpace header = t0 :: t1 :: ctok :: rts)
    (hhopen : normalsOpenB header = true)
    (hhclose : closeParenB header = false)
    (hhvec : vectorOpenB header = false)
    (hrec : ∀ l ∈ records, vectorOpenB l = true ∧
      (closeParenB l && decide (l.length < 6)) = false)
    (hclose : (closeParenB closer && decide (closer.length < 6)) = true)
    (hclosevec : vectorOpenB closer = false)
    (hpost : ∀ l ∈ post, normalsOpenB l = false)
    (hnewvec : vectorOpenB (vectorRecLine xs ys zs) = true)
    (hsplit2 : splitSpace (joinSpace (t0 :: t1 :: natToChars (records.length + 1) :: rts)) =
      t0 :: t1 :: natToChars (records.length + 1) :: rts)
    (hh2open : normalsOpenB (joinSpace (t0 :: t1 :: natToChars (records.length + 1) :: rts)) = true)
    (hh2close : closeParenB (joinSpace (t0 :: t1 :: natToChars (records.length + 1) :: rts)) = false)
    (hh2vec : vectorOpenB (joinSpace (t0 :: t1 :: natToChars (records.length + 1) :: rts)) = false)
    (hdecl : ctok = natToChars records.length) :
    addNormal (pre ++ header :: (records ++ closer :: post)) xs ys zs =
      some (records.length,
        pre ++ joinSpace (t0 :: t1 :: natToChars (records.length + 1) :: rts) ::
          (records ++ vectorRecLine xs ys zs :: closer :: post)) ∧
    parsedNormalCount (pre ++ header :: (records ++ closer :: post)) = records.length ∧
    parsedNormalCount
      (pre ++ joinSpace (t0 :: t1 :: natToChars (records.length + 1) :: rts) ::
        (records ++ vectorRecLine xs ys zs :: closer :: post)) = records.length + 1 ∧
    declaredNormalTok (pre ++ header :: (records ++ closer :: post)) =
      some (natToChars records.length) ∧
    declaredNormalTok
      (pre ++ joinSpace (t0 :: t1 :: natToChars (records.length + 1) :: rts) ::
        (records ++ vectorRecLine xs ys zs :: closer :: post)) =
      some (natToChars (records.length + 1)) := by
  have hclosepar : closeParenB closer = true := by
    cases hx : closeParenB closer
    · rw [hx] at hclose; simp at hclose
    · rfl
  have haux : addNormalAux (vectorRecLine xs ys zs)
      (pre ++ header :: (records ++ closer :: post)) false 0 =
      some (records.length,
        pre ++ header :: (records ++ vectorRecLine xs ys zs :: closer :: post)) := by
    rw [addNormalAux_skip _ pre _ 0 hpre]
    have hh : addNormalAux (vectorRecLine xs ys zs)
        (header :: (records ++ closer :: post)) false 0 =
        (addNormalAux (vectorRecLine xs ys zs) (records ++ closer :: post) true 0).map
          (fun pr => (pr.1, header :: pr.2)) := by
      simp only [addNormalAux, hhopen, Bool.false_or, hhclose, hhvec, Bool.and_false,
        Bool.true_and, Bool.false_and]
      rw [if_neg (by simp), if_neg (by simp)]
    rw [hh, addNormalAux_records _ records _ 0 hrec,
      addNormalAux_close _ closer post _ hclose]
    simp
  refine ⟨?_, ?_, ?_, ?_, ?_⟩
  · unfold addNormal
    rw [haux]
    simp only [Option.map_some']
    rw [setNormalCount_skip pre _ _ hpre, setNormalCount_hit header _ _ hhopen,
      setTok2_eval header t0 t1 ctok (natToChars (records.length + 1)) rts hsplit]
  · unfold parsedNormalCount
    rw [parsedNormalCountAux_skip pre _ hpre,
      parsedNormalCountAux_header header _ hhopen hhclose hhvec,
      parsedNormalCountAux_records records _ (fun l hl => (hrec l hl).1),
      parsedNormalCountAux_close closer post hclosepar hclosevec hpost]
    omega
  · unfold parsedNormalCount
    rw [parsedNormalCountAux_skip pre _ hpre,
      parsedNormalCountAux_header _ _ hh2open hh2close hh2vec]
    rw [show records ++ vectorRecLine xs ys zs :: closer :: post =
      (records ++ [vectorRecLine xs ys zs]) ++ closer :: post by simp]
    rw [parsedNormalCountAux_records (records ++ [vectorRecLine xs ys zs]) _ ?hall,
      parsedNormalCountAux_close closer post hclosepar hclosevec hpost]
    case hall =>
      intro l hl
      rcases List.mem_append.mp hl with hmem | hmem
      · exact (hrec l hmem).1
      · rw [List.mem_singleton.mp hmem]
        exact hnewvec
    simp
  · rw [declaredNormalTok_eval pre _ header hpre hhopen, hsplit, hdecl]
    rfl
  · rw [declaredNormalTok_eval pre _ _ hpre hh2open, hsplit2]
    rfl

/-- C3: on a well-formed document whose declared point (respectively normal)
count field holds the decimal rendering of the parsed record count,
`add_point` (respectively `add_normal`) appends exactly one record line
inside the block, returns the zero-based index of the new record — which
equals the number of records before the call — and rewrites the declared
count so that it again equals the number of parsed records, one more than
before. -/
theorem c3_add_point_add_normal_count_invariant :
    (∀ (pre records post : List (List Char))
        (header closer t0 t1 ctok xs ys zs : List Char) (rts : List (List Char)),
      (∀ l ∈ pre, pointsOpenB l = false) →
      (∀ l ∈ pre, pointRecB l = false) →
      splitSpace header = t0 :: t1 :: ctok :: rts →
      pointsOpenB header = true →
      closeParenB header = false →
      pointOpenB header = false →
      (∀ l ∈ records, pointOpenB l = true ∧ uvPointOpenB l = false) →
      closeParenB closer = true →
      pointOpenB closer = false →
      (∀ l ∈ post, pointRecB l = false) →
      pointOpenB (pointRecLine xs ys zs) = true →
      uvPointOpenB (pointRecLine xs ys zs) = false →
      splitSpace (joinSpace (t0 :: t1 :: natToChars (records.length + 1) :: rts)) =
        t0 :: t1 :: natToChars (records.length + 1) :: rts →
      pointsOpenB (joinSpace (t0 :: t1 :: natToChars (records.length + 1) :: rts)) = true →
      pointRecB (joinSpace (t0 :: t1 :: natToChars (records.length + 1) :: rts)) = false →
      ctok = natToChars records.length →
      addPoint (pre ++ header :: (records ++ closer :: post)) xs ys zs =
        some (records.length,
          pre ++ joinSpace (t0 :: t1 :: natToChars (records.length + 1) :: rts) ::
            (records ++ pointRecLine xs ys zs :: closer :: post)) ∧
      parsedPointCount (pre ++ header :: (records ++ closer :: post)) = records.length ∧
      parsedPointCount
        (pre ++ joinSpace (t0 :: t1 :: natToChars (records.length + 1) :: rts) ::
          (records ++ pointRecLine xs ys zs :: closer :: post)) = records.length + 1 ∧
      declaredPointTok (pre ++ header :: (records ++ closer :: post)) =
        some (natToChars records.length) ∧
      declaredPointTok
        (pre ++ joinSpace (t0 :: t1 :: natToChars (records.length + 1) :: rts) ::
          (records ++ pointRecLine xs ys zs :: closer :: post)) =
        some (natToChars (records.length + 1))) ∧
    (∀ (pre records post : List (List Char))
        (header closer t0 t1 ctok xs ys zs : List Char) (rts : List (List Char)),
      (∀ l ∈ pre, normalsOpenB l = false) →
      splitSpace header = t0 :: t1 :: ctok :: rts →
      normalsOpenB header = true →
      closeParenB header = false →
      vectorOpenB header = false →
      (∀ l ∈ records, vectorOpenB l = true ∧
        (closeParenB l && decide (l.length < 6)) = false) →
      (closeParenB closer && decide (closer.length < 6)) = true →
      vectorOpenB closer = false →
      (∀ l ∈ post, normalsOpenB l = false) →
      vectorOpenB (vectorRecLine xs ys zs) = true →
      splitSpace (joinSpace (t0 :: t1 :: natToChars (records.length + 1) :: rts)) =
        t0 :: t1 :: natToChars (records.length + 1) :: rts →
      normalsOpenB (joinSpace (t0 :: t1 :: natToChars (records.length + 1) :: rts)) = true →
      closeParenB (joinSpace (t0 :: t1 :: natToChars (records.length + 1) :: rts)) = false →
      vectorOpenB (joinSpace (t0 :: t1 :: natToChars (records.length + 1) :: rts)) = false →
      ctok = natToChars records.length →
      addNormal (pre ++ header :: (records ++ closer :: post)) xs ys zs =
        some (records.length,
          pre ++ joinSpace (t0 :: t1 :: natToChars (records.length + 1) :: rts) ::
            (records ++ vectorRecLine xs ys zs :: closer :: post)) ∧
      parsedNormalCount (pre ++ header :: (records ++ closer :: post)) = records.length ∧
      parsedNormalCount
        (pre ++ joinSpace (t0 :: t1 :: natToChars (records.length + 1) :: rts) ::
          (records ++ vectorRecLine xs ys zs :: closer :: post)) = records.length + 1 ∧
      declaredNormalTok (pre ++ header :: (records ++ closer :: post)) =
        some (natToChars records.length) ∧
      declaredNormalTok
        (pre ++ joinSpace (t0 :: t1 :: natToChars (records.length + 1) :: rts) ::
          (records ++ vectorRecLine xs ys zs :: closer :: post)) =
        some (natToChars (records.length + 1))) := by
  constructor
  · intro pre records post header closer t0 t1 ctok xs ys zs rts
      h1 h2 h3 h4 h5 h6 h7 h8 h9 h10 h11 h12 h13 h14 h15 h16
    exact addPoint_spec pre records post header closer t0 t1 ctok xs ys zs rts
      h1 h2 h3 h4 h5 h6 h7 h8 h9 h10 h11 h12 h13 h14 h15 h16
  · intro pre records post header closer t0 t1 ctok xs ys zs rts
      h1 h2 h3 h4 h5 h6 h7 h8 h9 h10 h11 h12 h13 h14 h15
    exact addNormal_spec pre records post header closer t0 t1 ctok xs ys zs rts
      h1 h2 h3 h4 h5 h6 h7 h8 h9 h10 h11 h12 h13 h14 h15

theorem c3_add_point_add_normal_count_invariant_witness :
    (∃ doc2, addPoint
      ([("\ta").toList] ++ ("\tpoints ( 1").toList ::
        ([("\t\tpoint ( 0 0 0 )").toList] ++ ("\t)").toList :: [("\tb").toList]))
      (("1.5").toList) (("0").toList) (("2").toList) = some (1, doc2)) ∧
    (∃ doc3, addNormal
      ([("\ta").toList] ++ ("\tnormals ( 1").toList ::
        ([("\t\tvector ( 0 1 0 )").toList] ++ ("\t)").toList :: [("\tb").toList]))
      (("0").toList) (("1").toList) (("0").toList) = some (1, doc3)) :=
  ⟨⟨_, (c3_add_point_add_normal_count_invariant.1
      [("\ta").toList] [("\t\tpoint ( 0 0 0 )").toList] [("\tb").toList]
      (("\tpoints ( 1").toList) (("\t)").toList) (("\tpoints").toList) (("(").toList)
      (("1").toList) (("1.5").toList) (("0").toList) (("2").toList) []
      (by decide) (by decide) (by decide) (by decide) (by decide) (by decide)
      (by decide) (by decide) (by decide) (by decide) (by decide) (by decide)
      (by decide) (by decide) (by decide) (by decide)).1⟩,
    ⟨_, (c3_add_point_add_normal_count_invariant.2
      [("\ta").toList] [("\t\tvector ( 0 1 0 )").toList] [("\tb").toList]
      (("\tnormals ( 1").toList) (("\t)").toList) (("\tnormals").toList) (("(").toList)
      (("1").toList) (("0").toList) (("1").toList) (("0").toList) []
      (by decide) (by decide) (by decide) (by decide) (by decide) (by decide)
      (by decide) (by decide) (by decide) (by decide) (by decide) (by decide)
      (by decide) (by decide) (by decide)).1⟩⟩

theorem c4_straight_centerpoints_amended_witness :
    (generateStraightCenterpoints 10 10 0 ⟨0, 0, 0⟩).length = 10 ∧
    (∃ s t, (generateStraightCenterpoints 10 10 0 ⟨0, 0, 0⟩).get? 0 = some s ∧
      (generateStraightCenterpoints 10 10 0 ⟨0, 0, 0⟩).get? 9 = some t ∧ s.z < t.z) :=
  ⟨c4_straight_centerpoints_amended.1 10 0 ⟨0, 0, 0⟩ 10,
    c4_straight_centerpoints_amended.2.2.2.2.2 0 9 (by norm_num) (by norm_num)⟩
